import Mathlib

/-!
Examon metric aggregation: a shallow embedding of `examon_metric.cpp` and of the
metric registry of `examon_sync_plugin.cpp`.

The classes `examon_metric` and `examon_sync_plugin` are embedded as records of
their data members and their member functions as pure functions on those records.

Modelling conventions:

* C++ `double` is modelled twice. Namespace `IEEE` embeds the state machine over an
  arbitrary carrier with the operations the code uses (`DoubleOps`), about which
  nothing is assumed: sums may round, and NaN, which `sscanf` accepts and which
  compares `!=` to itself, is a possible value. The statements about what a burst
  of readings reduces to and about fan-in discovery are made there. The other
  statements use the embedding over exact rationals `ℚ` (finite values only).
* `std::int64_t` / `std::int32_t` counters are modelled by `Int`; signed overflow
  (undefined behaviour in C++) is outside the model.
* `sscanf(incoming_payload, "%lf;%lf", ...)` is a libc call: `handle_message`
  receives its outcome (`ScanResult`) in place of the raw payload bytes.
* `scorep::chrono::measurement_clock::now()` is an external clock: the tick
  value read by `push_latest_value` is passed in as `now_ticks`.
* The constructor leaves the member `erg_unit` uninitialised; the value the
  member happens to hold is an explicit parameter of `examon_metric.new`.
* The constructor passes `name`'s own buffer to the `basename` of `<libgen.h>`,
  which may write to it; `Deps.basename` therefore also yields the buffer
  afterwards, and `xpg_basename` is glibc's implementation.
-/

namespace Examon

/-- Accumulation strategies dispatched on by the `switch` in `handle_message`. -/
inductive ACCUMULATION_STRATEGY
  | ACCUMULATION_AVG
  | ACCUMULATION_SUM
  | ACCUMULATION_MIN
  | ACCUMULATION_MAX
  deriving DecidableEq, Repr

/-- Modelled from the spec: the enum `EXAMON_METRIC_TYPE` is declared in
`include_once.hpp`, which is not part of the sources at hand; the code only
ever compares against `ENERGY`, every other class is `OTHER`. -/
inductive EXAMON_METRIC_TYPE
  | ENERGY
  | OTHER
  deriving DecidableEq, Repr

/-- Modelled from the spec: the enum `OUTPUT_DATATYPE` is declared in
`include_once.hpp`; the constructor names `DOUBLE`, the spec names the other
reported kind INTEGER. -/
inductive OUTPUT_DATATYPE
  | DOUBLE
  | INTEGER
  deriving DecidableEq, Repr

open ACCUMULATION_STRATEGY EXAMON_METRIC_TYPE OUTPUT_DATATYPE

/-- Data members of `class examon_metric` (the pointer `channels` is represented
by the collaborator functions in `Deps`). -/
structure examon_metric where
  id : Int
  name : String
  full_topic : String
  metric_value : ℚ
  metric_timestamp : ℚ
  metric_elapsed : ℚ
  metric_iterations : Int
  metric_topic_count : Int
  metric_accumulated : ℚ
  scale_mul : ℚ
  metric_sub_iterations : Int
  acc_strategy : ACCUMULATION_STRATEGY
  metric_type : EXAMON_METRIC_TYPE
  metric_datatype : OUTPUT_DATATYPE
  erg_unit : ℚ
  do_gather_data : Bool
  gathered_data : List (Int × ℚ)
  deriving DecidableEq

/-- The three members that `parse_metric_options` receives by reference. -/
structure MetricOptions where
  acc_strategy : ACCUMULATION_STRATEGY
  metric_datatype : OUTPUT_DATATYPE
  scale_mul : ℚ
  deriving DecidableEq

/-- Functions the constructor calls that live outside `examon_metric.cpp`:
`parse_metric_options` and `parse_metric_type` (from `include_once.hpp`),
`examon_mqtt_path::get_data_topic` and libc `basename`. The `basename` of
`<libgen.h>` may write to the buffer it is given, so it yields two strings: the
component its return value points to, and the contents of the buffer afterwards. -/
structure Deps where
  parse_metric_options : String → MetricOptions → MetricOptions
  get_data_topic : String → String
  basename : String → String × String
  parse_metric_type : String → EXAMON_METRIC_TYPE

/-- Outcome of `sscanf(incoming_payload, "%lf;%lf", &read_value, &read_timestamp)`:
the return value and the contents of the two output variables afterwards. -/
structure ScanResult where
  values_read : Int
  read_value : ℚ
  read_timestamp : ℚ
  deriving DecidableEq

/-- `std::string::find_first_of(c)`: position of the first occurrence, `none` for `npos`. -/
def find_first_of (s : String) (c : Char) : Option Nat :=
  let i := s.data.indexOf c
  if i < s.data.length then some i else none

/-- `std::string::substr(pos, len)` with `len = none` for `npos`. -/
def substr (s : String) (pos : Nat) (len : Option Nat) : String :=
  match len with
  | some n => ⟨(s.data.drop pos).take n⟩
  | none => ⟨s.data.drop pos⟩

/-- The last `/`-separated component of a path that does not end in `/`. -/
def last_component (l : List Char) : List Char :=
  (l.reverse.takeWhile (fun c => c != '/')).reverse

/-- The `basename` that `<libgen.h>` declares, as glibc implements it
(`__xpg_basename`), applied to the C string that starts the buffer `s` (the characters
before the first NUL): the component the return value points to, and the buffer
afterwards. A path that ends in `/` and does not consist of `/` only has NUL written
over the first `/` of its trailing run; otherwise the buffer is left alone. -/
def xpg_basename (s : String) : String × String :=
  let cstr := s.data.takeWhile (fun c => c != Char.ofNat 0)
  let rest := s.data.drop cstr.length
  if cstr = [] then (".", s)
  else if '/' ∉ cstr then (⟨cstr⟩, s)
  else if cstr.getLast? ≠ some '/' then (⟨last_component cstr⟩, s)
  else
    let body := (cstr.reverse.dropWhile (fun c => c == '/')).reverse
    if body = [] then ("/", s)
    else (⟨last_component body⟩,
      ⟨body ++ Char.ofNat 0 :: (cstr.drop (body.length + 1) ++ rest)⟩)

/-- Constructor `examon_metric::examon_metric`. `erg_unit` is not assigned by the
constructor; `erg_unit_uninit` is the value the member holds afterwards. The call
`basename((char*)name.c_str())` hands `name`'s own buffer to `basename`, so `name`
ends up as whatever `basename` leaves in that buffer; `full_topic` is computed before
that call. -/
def examon_metric.new (d : Deps) (erg_unit_uninit : ℚ) (param_id : Int) (param_name : String)
    (param_gather : Bool) : examon_metric :=
  let defaults : MetricOptions := ⟨ACCUMULATION_AVG, DOUBLE, 1⟩
  let parsed : MetricOptions × String :=
    match find_first_of param_name ';' with
    | some semicolon_pos =>
        (d.parse_metric_options (substr param_name (semicolon_pos + 1) none) defaults,
         substr param_name 0 (some semicolon_pos))
    | none => (defaults, param_name)
  let metric_basename : String × String := d.basename parsed.2
  { id := param_id
    name := metric_basename.2
    full_topic := d.get_data_topic parsed.2
    metric_value := -1
    metric_timestamp := 0
    metric_elapsed := 0
    metric_iterations := 0
    metric_topic_count := 1
    metric_accumulated := -1
    scale_mul := parsed.1.scale_mul
    metric_sub_iterations := 0
    acc_strategy := parsed.1.acc_strategy
    metric_type := d.parse_metric_type metric_basename.1
    metric_datatype := parsed.1.metric_datatype
    erg_unit := erg_unit_uninit
    do_gather_data := param_gather
    gathered_data := [] }

/-- Member `set_erg_unit`. -/
def set_erg_unit (m : examon_metric) (param_erg_unit : ℚ) : examon_metric :=
  { m with erg_unit := param_erg_unit }

/-- Member `set_gather_data`. -/
def set_gather_data (m : examon_metric) (param_do_gather : Bool) : examon_metric :=
  { m with do_gather_data := param_do_gather }

/-- Member `push_latest_value`. -/
def push_latest_value (m : examon_metric) (now_ticks : Int) (accumulated : Bool) :
    examon_metric :=
  let write_metric : ℚ := if accumulated then m.metric_accumulated else m.metric_value
  if m.metric_type = ENERGY then
    if 0 < m.erg_unit then
      { m with gathered_data :=
          m.gathered_data ++ [(now_ticks, write_metric * m.erg_unit * m.scale_mul)] }
    else m
  else
    { m with gathered_data := m.gathered_data ++ [(now_ticks, write_metric * m.scale_mul)] }

/-- The `switch (acc_strategy)` block of `handle_message`. -/
def accumulate (m : examon_metric) (read_value : ℚ) (completed_cycle : Bool) : examon_metric :=
  match m.acc_strategy with
  | ACCUMULATION_AVG =>
      let m1 := { m with metric_value := m.metric_value + read_value }
      if completed_cycle then
        { m1 with metric_accumulated := m1.metric_value / (m1.metric_topic_count : ℚ) }
      else m1
  | ACCUMULATION_SUM =>
      let m1 := { m with metric_value := m.metric_value + read_value }
      if completed_cycle then { m1 with metric_accumulated := m1.metric_value } else m1
  | ACCUMULATION_MIN =>
      let m1 := if m.metric_value > read_value then { m with metric_value := read_value } else m
      if completed_cycle then { m1 with metric_accumulated := m1.metric_value } else m1
  | ACCUMULATION_MAX =>
      let m1 := if m.metric_value < read_value then { m with metric_value := read_value } else m
      if completed_cycle then { m1 with metric_accumulated := m1.metric_value } else m1

/-- Member `handle_message`, given the outcome of the `sscanf` on the payload. -/
def handle_message (m : examon_metric) (now_ticks : Int) (scan : ScanResult) : examon_metric :=
  if 2 = scan.values_read then
    let m1 : examon_metric :=
      if scan.read_timestamp ≠ m.metric_timestamp then
        let m2 := { m with
          metric_elapsed := scan.read_timestamp - m.metric_timestamp
          metric_value := scan.read_value
          metric_iterations := m.metric_iterations + 1
          metric_sub_iterations := 1 }
        if m2.do_gather_data then
          if 1 < m2.metric_iterations ∧ 1 = m2.metric_topic_count then
            push_latest_value m2 now_ticks false
          else m2
        else m2
      else
        let m2 := { m with metric_sub_iterations := m.metric_sub_iterations + 1 }
        if 1 = m2.metric_iterations then
          { m2 with metric_topic_count := m2.metric_topic_count + 1 }
        else
          let completed_cycle : Bool := m2.metric_sub_iterations == m2.metric_topic_count
          let m3 := accumulate m2 scan.read_value completed_cycle
          if completed_cycle && m3.do_gather_data then push_latest_value m3 now_ticks true else m3
    { m1 with metric_timestamp := scan.read_timestamp }
  else m

/-- Member `has_value`. -/
def has_value (m : examon_metric) : Bool :=
  if 1 < m.metric_iterations then
    if m.metric_type ≠ ENERGY ∨ 0 < m.erg_unit then
      if 1 < m.metric_topic_count then
        decide ((-1 : ℚ) ≠ m.metric_accumulated)
      else true
    else false
  else false

/-- Member `get_latest_value`. -/
def get_latest_value (m : examon_metric) : ℚ :=
  let return_value : ℚ :=
    if 1 < m.metric_topic_count then m.metric_accumulated else m.metric_value
  let return_value : ℚ :=
    if m.metric_type = ENERGY then
      if 0 < m.erg_unit then return_value * m.erg_unit else return_value
    else return_value
  return_value * m.scale_mul

/-- One incoming message as seen by a metric: the clock reading available to
`push_latest_value` and the outcome of decoding the payload. -/
abbrev Event := Int × ScanResult

/-- A decodable payload `value;timestamp`. -/
def reading (v t : ℚ) : ScanResult := ⟨2, v, t⟩

/-- Feeding a sequence of messages to `handle_message`, oldest first. -/
def ingest (m : examon_metric) (evs : List Event) : examon_metric :=
  evs.foldl (fun s e => handle_message s e.1 e.2) m

/-- A burst of readings that all carry the timestamp `t`; each entry of `rs`
is the clock reading and the value of one message. -/
def burst (t : ℚ) (rs : List (Int × ℚ)) : List Event :=
  rs.map (fun r => (r.1, reading r.2 t))

/-- A sequence of decodable readings; each entry is the clock reading, the value
and the timestamp of one message. -/
def readings (l : List (Int × ℚ × ℚ)) : List Event :=
  l.map (fun r => (r.1, reading r.2.1 r.2.2))

/-- States that a metric can be in: a freshly constructed metric, and whatever
`handle_message`, `set_erg_unit` and `set_gather_data` make of a reachable state. -/
inductive Reachable : examon_metric → Prop
  | fresh (d : Deps) (e : ℚ) (i : Int) (nm : String) (g : Bool) :
      Reachable (examon_metric.new d e i nm g)
  | message {m : examon_metric} (n : Int) (s : ScanResult) :
      Reachable m → Reachable (handle_message m n s)
  | unit {m : examon_metric} (u : ℚ) : Reachable m → Reachable (set_erg_unit m u)
  | gather {m : examon_metric} (b : Bool) : Reachable m → Reachable (set_gather_data m b)

/-- A sample collaborator set, used to instantiate the constructor: options
are left at their defaults, the topic is the name itself, `basename` is glibc's
(`xpg_basename`), and a base name starting with `erg_` is ENERGY-class. -/
def sampleDeps : Deps where
  parse_metric_options := fun _ o => o
  get_data_topic := fun s => s
  basename := xpg_basename
  parse_metric_type := fun s => if s.data.take 4 = ['e', 'r', 'g', '_'] then ENERGY else OTHER

/-- A sample metric state with the given strategy, class and counters, used to
instantiate statements about arbitrary states. -/
def sampleMetric (s : ACCUMULATION_STRATEGY) (ty : EXAMON_METRIC_TYPE)
    (value timestamp accumulated : ℚ) (iterations topic_count sub_iterations : Int) :
    examon_metric where
  id := 7
  name := "cpu/0/erg_pkg"
  full_topic := "cpu/0/erg_pkg"
  metric_value := value
  metric_timestamp := timestamp
  metric_elapsed := 0
  metric_iterations := iterations
  metric_topic_count := topic_count
  metric_accumulated := accumulated
  scale_mul := 1
  metric_sub_iterations := sub_iterations
  acc_strategy := s
  metric_type := ty
  metric_datatype := DOUBLE
  erg_unit := 2
  do_gather_data := true
  gathered_data := []

/-- What one duplicate-timestamp reading does to the accumulator `metric_value`
under each strategy (a closed form used to state the fold lemmas below). -/
def fold_step (s : ACCUMULATION_STRATEGY) (a v : ℚ) : ℚ :=
  match s with
  | ACCUMULATION_AVG => a + v
  | ACCUMULATION_SUM => a + v
  | ACCUMULATION_MIN => min a v
  | ACCUMULATION_MAX => max a v

/-- What is stored in `metric_accumulated` on cycle completion, from the
accumulator `a` and the topic count `n`. -/
def fold_final (s : ACCUMULATION_STRATEGY) (a : ℚ) (n : Int) : ℚ :=
  match s with
  | ACCUMULATION_AVG => a / (n : ℚ)
  | _ => a

/-- The entry list that `push_latest_value` appends for the written value `w`:
one pair, or nothing for an ENERGY metric whose `erg_unit` is not positive. -/
def history_entries (m : examon_metric) (now_ticks : Int) (w : ℚ) : List (Int × ℚ) :=
  if m.metric_type = ENERGY then
    if 0 < m.erg_unit then [(now_ticks, w * m.erg_unit * m.scale_mul)] else []
  else [(now_ticks, w * m.scale_mul)]

/-- A call of member `has_value` on the object: the returned flag and the object
afterwards (the body assigns no data member). -/
def has_value_call (m : examon_metric) : Bool × examon_metric :=
  (has_value m, m)

/-- A call of member `get_latest_value` on the object: the returned value and the
object afterwards (the body assigns only its local `return_value`). -/
def get_latest_value_call (m : examon_metric) : ℚ × examon_metric :=
  (get_latest_value m, m)

/-- The two read operations of a metric. -/
inductive ReadCall
  | has_value
  | get_latest_value
  deriving DecidableEq, Repr

/-- The object after one read operation. -/
def read_call (m : examon_metric) (c : ReadCall) : examon_metric :=
  match c with
  | ReadCall.has_value => (has_value_call m).2
  | ReadCall.get_latest_value => (get_latest_value_call m).2

/-- The object after a sequence of read operations. -/
def read_calls (m : examon_metric) (cs : List ReadCall) : examon_metric :=
  cs.foldl read_call m

/-- Data members of `class examon_sync_plugin` (`examon_sync_plugin.cpp`). -/
structure examon_sync_plugin where
  metricNames : List String
  metricIds : List Int
  deriving DecidableEq

/-- Constructor of `examon_sync_plugin`: both vectors start empty. -/
def examon_sync_plugin.new : examon_sync_plugin := ⟨[], []⟩

/-- Member `examon_sync_plugin::put_metric`: the returned id and the plugin afterwards. -/
def put_metric (p : examon_sync_plugin) (metric : String) : Int × examon_sync_plugin :=
  let biggestInt : Int := p.metricIds.foldl (fun b x => if x > b then x else b) (-1)
  let newId : Int := biggestInt + 1
  (newId, { metricIds := p.metricIds ++ [newId], metricNames := p.metricNames ++ [metric] })

/-- Member `examon_sync_plugin::add_metric`: the returned id and the plugin afterwards. -/
def add_metric (p : examon_sync_plugin) (metric_name : String) : Int × examon_sync_plugin :=
  if metric_name = "Joule" ∨ metric_name = "joule" ∨ metric_name = "tsc" then
    put_metric p "tsc"
  else (0, p)

namespace IEEE

/-- The operations on C++ `double` that `examon_metric.cpp` uses, over a carrier `F`.
Nothing is assumed about them: sums and quotients may round, and a value `x` with
`ne x x = true` (NaN, which `sscanf` accepts) is allowed. `lt a b` is `a < b` (the
code's `a > b` is `lt b a`), `ne a b` is `a != b`, `ofInt64` is the conversion of a
`std::int64_t` operand, and `zero`, `one`, `negOne` are the literals `0.00`, `1.00`
and `-1.00`. -/
structure DoubleOps (F : Type) where
  add : F → F → F
  sub : F → F → F
  mul : F → F → F
  div : F → F → F
  lt : F → F → Bool
  ne : F → F → Bool
  ofInt64 : Int → F
  zero : F
  one : F
  negOne : F

/-- Data members of `class examon_metric`, with `double` members in the carrier `F`. -/
structure examon_metric (F : Type) where
  id : Int
  name : String
  full_topic : String
  metric_value : F
  metric_timestamp : F
  metric_elapsed : F
  metric_iterations : Int
  metric_topic_count : Int
  metric_accumulated : F
  scale_mul : F
  metric_sub_iterations : Int
  acc_strategy : ACCUMULATION_STRATEGY
  metric_type : EXAMON_METRIC_TYPE
  metric_datatype : OUTPUT_DATATYPE
  erg_unit : F
  do_gather_data : Bool
  gathered_data : List (Int × F)

/-- The three members that `parse_metric_options` receives by reference. -/
structure MetricOptions (F : Type) where
  acc_strategy : ACCUMULATION_STRATEGY
  metric_datatype : OUTPUT_DATATYPE
  scale_mul : F

/-- Functions the constructor calls that live outside `examon_metric.cpp`; `basename`
yields the component it returns and the buffer afterwards. -/
structure Deps (F : Type) where
  parse_metric_options : String → MetricOptions F → MetricOptions F
  get_data_topic : String → String
  basename : String → String × String
  parse_metric_type : String → EXAMON_METRIC_TYPE

/-- Outcome of `sscanf(incoming_payload, "%lf;%lf", &read_value, &read_timestamp)`:
the return value and the contents of the two output variables afterwards. -/
structure ScanResult (F : Type) where
  values_read : Int
  read_value : F
  read_timestamp : F

/-- Constructor `examon_metric::examon_metric`; `erg_unit` is not assigned and holds
`erg_unit_uninit` afterwards. -/
def examon_metric.new {F : Type} (ops : DoubleOps F) (d : Deps F) (erg_unit_uninit : F)
    (param_id : Int) (param_name : String) (param_gather : Bool) : examon_metric F :=
  let defaults : MetricOptions F := ⟨ACCUMULATION_AVG, DOUBLE, ops.one⟩
  let parsed : MetricOptions F × String :=
    match find_first_of param_name ';' with
    | some semicolon_pos =>
        (d.parse_metric_options (substr param_name (semicolon_pos + 1) none) defaults,
         substr param_name 0 (some semicolon_pos))
    | none => (defaults, param_name)
  let metric_basename : String × String := d.basename parsed.2
  { id := param_id
    name := metric_basename.2
    full_topic := d.get_data_topic parsed.2
    metric_value := ops.negOne
    metric_timestamp := ops.zero
    metric_elapsed := ops.zero
    metric_iterations := 0
    metric_topic_count := 1
    metric_accumulated := ops.negOne
    scale_mul := parsed.1.scale_mul
    metric_sub_iterations := 0
    acc_strategy := parsed.1.acc_strategy
    metric_type := d.parse_metric_type metric_basename.1
    metric_datatype := parsed.1.metric_datatype
    erg_unit := erg_unit_uninit
    do_gather_data := param_gather
    gathered_data := [] }

/-- Member `push_latest_value`. -/
def push_latest_value {F : Type} (ops : DoubleOps F) (m : examon_metric F) (now_ticks : Int)
    (accumulated : Bool) : examon_metric F :=
  let write_metric : F := if accumulated then m.metric_accumulated else m.metric_value
  if m.metric_type = ENERGY then
    if ops.lt ops.zero m.erg_unit = true then
      { m with gathered_data :=
          m.gathered_data ++ [(now_ticks, ops.mul (ops.mul write_metric m.erg_unit) m.scale_mul)] }
    else m
  else
    { m with gathered_data :=
        m.gathered_data ++ [(now_ticks, ops.mul write_metric m.scale_mul)] }

/-- The `switch (acc_strategy)` block of `handle_message`. -/
def accumulate {F : Type} (ops : DoubleOps F) (m : examon_metric F) (read_value : F)
    (completed_cycle : Bool) : examon_metric F :=
  match m.acc_strategy with
  | ACCUMULATION_AVG =>
      let m1 := { m with metric_value := ops.add m.metric_value read_value }
      if completed_cycle then
        { m1 with metric_accumulated :=
            ops.div m1.metric_value (ops.ofInt64 m1.metric_topic_count) }
      else m1
  | ACCUMULATION_SUM =>
      let m1 := { m with metric_value := ops.add m.metric_value read_value }
      if completed_cycle then { m1 with metric_accumulated := m1.metric_value } else m1
  | ACCUMULATION_MIN =>
      let m1 :=
        if ops.lt read_value m.metric_value = true then { m with metric_value := read_value }
        else m
      if completed_cycle then { m1 with metric_accumulated := m1.metric_value } else m1
  | ACCUMULATION_MAX =>
      let m1 :=
        if ops.lt m.metric_value read_value = true then { m with metric_value := read_value }
        else m
      if completed_cycle then { m1 with metric_accumulated := m1.metric_value } else m1

/-- Member `handle_message`, given the outcome of the `sscanf` on the payload. -/
def handle_message {F : Type} (ops : DoubleOps F) (m : examon_metric F) (now_ticks : Int)
    (scan : ScanResult F) : examon_metric F :=
  if 2 = scan.values_read then
    let m1 : examon_metric F :=
      if ops.ne scan.read_timestamp m.metric_timestamp = true then
        let m2 := { m with
          metric_elapsed := ops.sub scan.read_timestamp m.metric_timestamp
          metric_value := scan.read_value
          metric_iterations := m.metric_iterations + 1
          metric_sub_iterations := 1 }
        if m2.do_gather_data then
          if 1 < m2.metric_iterations ∧ 1 = m2.metric_topic_count then
            push_latest_value ops m2 now_ticks false
          else m2
        else m2
      else
        let m2 := { m with metric_sub_iterations := m.metric_sub_iterations + 1 }
        if 1 = m2.metric_iterations then
          { m2 with metric_topic_count := m2.metric_topic_count + 1 }
        else
          let completed_cycle : Bool := m2.metric_sub_iterations == m2.metric_topic_count
          let m3 := accumulate ops m2 scan.read_value completed_cycle
          if completed_cycle && m3.do_gather_data then push_latest_value ops m3 now_ticks true
          else m3
    { m1 with metric_timestamp := scan.read_timestamp }
  else m

/-- One incoming message: the clock reading and the outcome of decoding the payload. -/
abbrev Event (F : Type) := Int × ScanResult F

/-- A decodable payload `value;timestamp`. -/
def reading {F : Type} (v t : F) : ScanResult F := ⟨2, v, t⟩

/-- Feeding a sequence of messages to `handle_message`, oldest first. -/
def ingest {F : Type} (ops : DoubleOps F) (m : examon_metric F) (evs : List (Event F)) :
    examon_metric F :=
  evs.foldl (fun s e => handle_message ops s e.1 e.2) m

/-- A burst of readings that all carry the timestamp `t`; each entry of `rs` is the
clock reading and the value of one message. -/
def burst {F : Type} (t : F) (rs : List (Int × F)) : List (Event F) :=
  rs.map (fun r => (r.1, reading r.2 t))

/-- What one duplicate-timestamp reading does to the accumulator `metric_value` under
each strategy, in the code's own operations. -/
def fold_step {F : Type} (ops : DoubleOps F) (s : ACCUMULATION_STRATEGY) (a v : F) : F :=
  match s with
  | ACCUMULATION_AVG => ops.add a v
  | ACCUMULATION_SUM => ops.add a v
  | ACCUMULATION_MIN => if ops.lt v a = true then v else a
  | ACCUMULATION_MAX => if ops.lt a v = true then v else a

/-- What is stored in `metric_accumulated` on cycle completion. -/
def fold_final {F : Type} (ops : DoubleOps F) (s : ACCUMULATION_STRATEGY) (a : F) (n : Int) :
    F :=
  match s with
  | ACCUMULATION_AVG => ops.div a (ops.ofInt64 n)
  | _ => a

/-- The laws of the comparisons `<` and `!=` on doubles that the MIN / MAX results
rest on: `<` is irreflexive and transitive, and two values that are both numbers
(`x != x` is false) and not ordered by `<` either way are equal under `!=`. -/
structure OrderLaws {F : Type} (ops : DoubleOps F) : Prop where
  lt_irrefl : ∀ a : F, ops.lt a a = false
  lt_trans : ∀ a b c : F, ops.lt a b = true → ops.lt b c = true → ops.lt a c = true
  eq_of_not_lt : ∀ a b : F, ops.ne a a = false → ops.ne b b = false →
    ops.lt a b = false → ops.lt b a = false → ops.ne a b = false

/-- A sample carrier for witnesses: the rationals with exact arithmetic, plus NaN
(`none`). NaN propagates through the arithmetic, is never `<` anything and is `!=`
everything, itself included; a division by zero yields NaN here. -/
def sampleOps : DoubleOps (Option ℚ) where
  add := fun a b => match a, b with
    | some x, some y => some (x + y)
    | _, _ => none
  sub := fun a b => match a, b with
    | some x, some y => some (x - y)
    | _, _ => none
  mul := fun a b => match a, b with
    | some x, some y => some (x * y)
    | _, _ => none
  div := fun a b => match a, b with
    | some x, some y => if y = 0 then none else some (x / y)
    | _, _ => none
  lt := fun a b => match a, b with
    | some x, some y => decide (x < y)
    | _, _ => false
  ne := fun a b => match a, b with
    | some x, some y => decide (x ≠ y)
    | _, _ => true
  ofInt64 := fun n => some (n : ℚ)
  zero := some 0
  one := some 1
  negOne := some (-1)

/-- A sample collaborator set over the sample carrier, as `Examon.sampleDeps`. -/
def sampleDeps : Deps (Option ℚ) where
  parse_metric_options := fun _ o => o
  get_data_topic := fun s => s
  basename := xpg_basename
  parse_metric_type := fun s => if s.data.take 4 = ['e', 'r', 'g', '_'] then ENERGY else OTHER

/-- A sample metric state over the sample carrier with the given strategy and counters. -/
def sampleMetric (s : ACCUMULATION_STRATEGY) (value timestamp accumulated : Option ℚ)
    (iterations topic_count sub_iterations : Int) : examon_metric (Option ℚ) where
  id := 7
  name := "cpu/0/temp"
  full_topic := "cpu/0/temp"
  metric_value := value
  metric_timestamp := timestamp
  metric_elapsed := some 0
  metric_iterations := iterations
  metric_topic_count := topic_count
  metric_accumulated := accumulated
  scale_mul := some 1
  metric_sub_iterations := sub_iterations
  acc_strategy := s
  metric_type := OTHER
  metric_datatype := DOUBLE
  erg_unit := some 2
  do_gather_data := true
  gathered_data := []

end IEEE

/-- Exact rational arithmetic as an instance of the double operations. -/
def ratOps : IEEE.DoubleOps ℚ where
  add := fun a b => a + b
  sub := fun a b => a - b
  mul := fun a b => a * b
  div := fun a b => a / b
  lt := fun a b => decide (a < b)
  ne := fun a b => decide (a ≠ b)
  ofInt64 := fun n => (n : ℚ)
  zero := 0
  one := 1
  negOne := -1

/-- A state of the rational embedding as a state of the embedding over `DoubleOps`. -/
def toIEEE (m : examon_metric) : IEEE.examon_metric ℚ where
  id := m.id
  name := m.name
  full_topic := m.full_topic
  metric_value := m.metric_value
  metric_timestamp := m.metric_timestamp
  metric_elapsed := m.metric_elapsed
  metric_iterations := m.metric_iterations
  metric_topic_count := m.metric_topic_count
  metric_accumulated := m.metric_accumulated
  scale_mul := m.scale_mul
  metric_sub_iterations := m.metric_sub_iterations
  acc_strategy := m.acc_strategy
  metric_type := m.metric_type
  metric_datatype := m.metric_datatype
  erg_unit := m.erg_unit
  do_gather_data := m.do_gather_data
  gathered_data := m.gathered_data

/-- A decoding outcome of the rational embedding as one of the embedding over
`DoubleOps`. -/
def toIEEEScan (s : ScanResult) : IEEE.ScanResult ℚ :=
  ⟨s.values_read, s.read_value, s.read_timestamp⟩

section frame
variable (m : examon_metric) (n : Int) (b : Bool) (v : ℚ)

@[simp] theorem push_metric_value : (push_latest_value m n b).metric_value = m.metric_value := by
  unfold push_latest_value; split_ifs <;> rfl
@[simp] theorem push_metric_timestamp :
    (push_latest_value m n b).metric_timestamp = m.metric_timestamp := by
  unfold push_latest_value; split_ifs <;> rfl
@[simp] theorem push_metric_iterations :
    (push_latest_value m n b).metric_iterations = m.metric_iterations := by
  unfold push_latest_value; split_ifs <;> rfl
@[simp] theorem push_metric_topic_count :
    (push_latest_value m n b).metric_topic_count = m.metric_topic_count := by
  unfold push_latest_value; split_ifs <;> rfl
@[simp] theorem push_metric_accumulated :
    (push_latest_value m n b).metric_accumulated = m.metric_accumulated := by
  unfold push_latest_value; split_ifs <;> rfl
@[simp] theorem push_metric_sub_iterations :
    (push_latest_value m n b).metric_sub_iterations = m.metric_sub_iterations := by
  unfold push_latest_value; split_ifs <;> rfl
@[simp] theorem push_scale_mul : (push_latest_value m n b).scale_mul = m.scale_mul := by
  unfold push_latest_value; split_ifs <;> rfl
@[simp] theorem push_acc_strategy : (push_latest_value m n b).acc_strategy = m.acc_strategy := by
  unfold push_latest_value; split_ifs <;> rfl
@[simp] theorem push_metric_type : (push_latest_value m n b).metric_type = m.metric_type := by
  unfold push_latest_value; split_ifs <;> rfl
@[simp] theorem push_erg_unit : (push_latest_value m n b).erg_unit = m.erg_unit := by
  unfold push_latest_value; split_ifs <;> rfl
@[simp] theorem push_do_gather_data :
    (push_latest_value m n b).do_gather_data = m.do_gather_data := by
  unfold push_latest_value; split_ifs <;> rfl

@[simp] theorem accumulate_metric_timestamp :
    (accumulate m v b).metric_timestamp = m.metric_timestamp := by
  unfold accumulate; split <;> split_ifs <;> rfl
@[simp] theorem accumulate_metric_iterations :
    (accumulate m v b).metric_iterations = m.metric_iterations := by
  unfold accumulate; split <;> split_ifs <;> rfl
@[simp] theorem accumulate_metric_topic_count :
    (accumulate m v b).metric_topic_count = m.metric_topic_count := by
  unfold accumulate; split <;> split_ifs <;> rfl
@[simp] theorem accumulate_metric_sub_iterations :
    (accumulate m v b).metric_sub_iterations = m.metric_sub_iterations := by
  unfold accumulate; split <;> split_ifs <;> rfl
@[simp] theorem accumulate_scale_mul : (accumulate m v b).scale_mul = m.scale_mul := by
  unfold accumulate; split <;> split_ifs <;> rfl
@[simp] theorem accumulate_acc_strategy : (accumulate m v b).acc_strategy = m.acc_strategy := by
  unfold accumulate; split <;> split_ifs <;> rfl
@[simp] theorem accumulate_metric_type : (accumulate m v b).metric_type = m.metric_type := by
  unfold accumulate; split <;> split_ifs <;> rfl
@[simp] theorem accumulate_erg_unit : (accumulate m v b).erg_unit = m.erg_unit := by
  unfold accumulate; split <;> split_ifs <;> rfl
@[simp] theorem accumulate_do_gather_data :
    (accumulate m v b).do_gather_data = m.do_gather_data := by
  unfold accumulate; split <;> split_ifs <;> rfl
@[simp] theorem accumulate_gathered_data :
    (accumulate m v b).gathered_data = m.gathered_data := by
  unfold accumulate; split <;> split_ifs <;> rfl

end frame

/-- Unfolding of `handle_message` on a reading with a new timestamp. -/
theorem handle_new_eq (m : examon_metric) (n : Int) (v t : ℚ) (ht : t ≠ m.metric_timestamp) :
    handle_message m n (reading v t) =
      { (if m.do_gather_data = true ∧ 1 < m.metric_iterations + 1 ∧ 1 = m.metric_topic_count then
          push_latest_value { m with
            metric_elapsed := t - m.metric_timestamp
            metric_value := v
            metric_iterations := m.metric_iterations + 1
            metric_sub_iterations := 1 } n false
         else { m with
            metric_elapsed := t - m.metric_timestamp
            metric_value := v
            metric_iterations := m.metric_iterations + 1
            metric_sub_iterations := 1 }) with metric_timestamp := t } := by
  unfold handle_message reading
  simp only [if_true, ne_eq, ht, not_false_eq_true]
  split_ifs <;> first | rfl | (exfalso; tauto)

/-- Unfolding of `handle_message` on a duplicate-timestamp reading while Learning. -/
theorem handle_dup_learning_eq (m : examon_metric) (n : Int) (v t : ℚ)
    (ht : t = m.metric_timestamp) (hit : m.metric_iterations = 1) :
    handle_message m n (reading v t) =
      { m with metric_sub_iterations := m.metric_sub_iterations + 1
               metric_topic_count := m.metric_topic_count + 1
               metric_timestamp := t } := by
  unfold handle_message reading
  simp only [if_true, ne_eq, ht, not_true_eq_false, if_false, hit]

/-- Unfolding of `handle_message` on a duplicate-timestamp reading in Steady state. -/
theorem handle_dup_steady_eq (m : examon_metric) (n : Int) (v t : ℚ)
    (ht : t = m.metric_timestamp) (hit : m.metric_iterations ≠ 1) :
    handle_message m n (reading v t) =
      { (if (m.metric_sub_iterations + 1 == m.metric_topic_count && m.do_gather_data) = true then
          push_latest_value (accumulate { m with metric_sub_iterations := m.metric_sub_iterations + 1 }
            v (m.metric_sub_iterations + 1 == m.metric_topic_count)) n true
         else accumulate { m with metric_sub_iterations := m.metric_sub_iterations + 1 }
            v (m.metric_sub_iterations + 1 == m.metric_topic_count)) with metric_timestamp := t } := by
  have h1 : ¬ (1 = m.metric_iterations) := fun h => hit h.symm
  unfold handle_message reading
  simp only [if_true, ne_eq, ht, not_true_eq_false, if_false, h1, accumulate_do_gather_data]


theorem accumulate_metric_value (m : examon_metric) (v : ℚ) (b : Bool) :
    (accumulate m v b).metric_value = fold_step m.acc_strategy m.metric_value v := by
  unfold accumulate fold_step
  split <;> rename_i hs <;> simp only [hs]
  · split_ifs <;> rfl
  · split_ifs <;> rfl
  · by_cases h : m.metric_value > v
    · have : min m.metric_value v = v := min_eq_right (le_of_lt h)
      rw [this]; simp only [h, if_true]; split_ifs <;> rfl
    · have : min m.metric_value v = m.metric_value := min_eq_left (not_lt.mp h)
      rw [this]; simp only [h, if_false]; split_ifs <;> rfl
  · by_cases h : m.metric_value < v
    · have : max m.metric_value v = v := max_eq_right (le_of_lt h)
      rw [this]; simp only [h, if_true]; split_ifs <;> rfl
    · have : max m.metric_value v = m.metric_value := max_eq_left (not_lt.mp h)
      rw [this]; simp only [h, if_false]; split_ifs <;> rfl

theorem accumulate_metric_accumulated (m : examon_metric) (v : ℚ) (b : Bool) :
    (accumulate m v b).metric_accumulated =
      if b = true then fold_final m.acc_strategy (fold_step m.acc_strategy m.metric_value v)
        m.metric_topic_count
      else m.metric_accumulated := by
  have hv := accumulate_metric_value m v b
  revert hv
  unfold accumulate fold_final
  split <;> rename_i hs <;> simp only [hs] <;> intro hv
  · cases b <;> simp [fold_step]
  · cases b <;> simp [fold_step]
  · cases b
    · simp only [Bool.false_eq_true, if_false]; split_ifs <;> rfl
    · simp only [if_true] at hv ⊢; exact hv
  · cases b
    · simp only [Bool.false_eq_true, if_false]; split_ifs <;> rfl
    · simp only [if_true] at hv ⊢; exact hv


/-- Effect of a reading with a new timestamp, field by field. -/
theorem handle_new_fields (m : examon_metric) (n : Int) (v t : ℚ) (ht : t ≠ m.metric_timestamp) :
    (handle_message m n (reading v t)).metric_value = v ∧
    (handle_message m n (reading v t)).metric_timestamp = t ∧
    (handle_message m n (reading v t)).metric_iterations = m.metric_iterations + 1 ∧
    (handle_message m n (reading v t)).metric_topic_count = m.metric_topic_count ∧
    (handle_message m n (reading v t)).metric_accumulated = m.metric_accumulated ∧
    (handle_message m n (reading v t)).metric_sub_iterations = 1 ∧
    (handle_message m n (reading v t)).acc_strategy = m.acc_strategy ∧
    (handle_message m n (reading v t)).metric_type = m.metric_type ∧
    (handle_message m n (reading v t)).erg_unit = m.erg_unit ∧
    (handle_message m n (reading v t)).scale_mul = m.scale_mul ∧
    (handle_message m n (reading v t)).do_gather_data = m.do_gather_data := by
  rw [handle_new_eq m n v t ht]
  split_ifs <;> simp

/-- Effect of a duplicate-timestamp reading while Learning, field by field. -/
theorem handle_dup_learning_fields (m : examon_metric) (n : Int) (v t : ℚ)
    (ht : t = m.metric_timestamp) (hit : m.metric_iterations = 1) :
    (handle_message m n (reading v t)).metric_value = m.metric_value ∧
    (handle_message m n (reading v t)).metric_timestamp = t ∧
    (handle_message m n (reading v t)).metric_iterations = 1 ∧
    (handle_message m n (reading v t)).metric_topic_count = m.metric_topic_count + 1 ∧
    (handle_message m n (reading v t)).metric_accumulated = m.metric_accumulated ∧
    (handle_message m n (reading v t)).metric_sub_iterations = m.metric_sub_iterations + 1 ∧
    (handle_message m n (reading v t)).acc_strategy = m.acc_strategy ∧
    (handle_message m n (reading v t)).metric_type = m.metric_type ∧
    (handle_message m n (reading v t)).erg_unit = m.erg_unit ∧
    (handle_message m n (reading v t)).scale_mul = m.scale_mul ∧
    (handle_message m n (reading v t)).do_gather_data = m.do_gather_data ∧
    (handle_message m n (reading v t)).gathered_data = m.gathered_data := by
  rw [handle_dup_learning_eq m n v t ht hit]
  simp [hit]

/-- Effect of a duplicate-timestamp reading in Steady state, field by field. -/
theorem handle_dup_steady_fields (m : examon_metric) (n : Int) (v t : ℚ)
    (ht : t = m.metric_timestamp) (hit : m.metric_iterations ≠ 1) :
    (handle_message m n (reading v t)).metric_value =
      fold_step m.acc_strategy m.metric_value v ∧
    (handle_message m n (reading v t)).metric_timestamp = t ∧
    (handle_message m n (reading v t)).metric_iterations = m.metric_iterations ∧
    (handle_message m n (reading v t)).metric_topic_count = m.metric_topic_count ∧
    (handle_message m n (reading v t)).metric_accumulated =
      (if m.metric_sub_iterations + 1 = m.metric_topic_count then
        fold_final m.acc_strategy (fold_step m.acc_strategy m.metric_value v) m.metric_topic_count
       else m.metric_accumulated) ∧
    (handle_message m n (reading v t)).metric_sub_iterations = m.metric_sub_iterations + 1 ∧
    (handle_message m n (reading v t)).acc_strategy = m.acc_strategy ∧
    (handle_message m n (reading v t)).metric_type = m.metric_type ∧
    (handle_message m n (reading v t)).erg_unit = m.erg_unit ∧
    (handle_message m n (reading v t)).scale_mul = m.scale_mul ∧
    (handle_message m n (reading v t)).do_gather_data = m.do_gather_data := by
  rw [handle_dup_steady_eq m n v t ht hit]
  split_ifs <;> simp [accumulate_metric_value, accumulate_metric_accumulated] <;>
    intro h <;> contradiction

theorem ingest_nil (m : examon_metric) : ingest m [] = m := rfl

theorem ingest_cons (m : examon_metric) (e : Event) (evs : List Event) :
    ingest m (e :: evs) = ingest (handle_message m e.1 e.2) evs := rfl

theorem ingest_append (m : examon_metric) (xs ys : List Event) :
    ingest m (xs ++ ys) = ingest (ingest m xs) ys := by
  simp [ingest, List.foldl_append]

theorem burst_cons (t : ℚ) (r : Int × ℚ) (rs : List (Int × ℚ)) :
    burst t (r :: rs) = (r.1, reading r.2 t) :: burst t rs := rfl

section fresh
variable (d : Deps) (e : ℚ) (i : Int) (nm : String) (g : Bool)

@[simp] theorem new_metric_timestamp : (examon_metric.new d e i nm g).metric_timestamp = 0 := rfl
@[simp] theorem new_metric_iterations : (examon_metric.new d e i nm g).metric_iterations = 0 := rfl
@[simp] theorem new_metric_topic_count :
    (examon_metric.new d e i nm g).metric_topic_count = 1 := rfl
@[simp] theorem new_metric_sub_iterations :
    (examon_metric.new d e i nm g).metric_sub_iterations = 0 := rfl
@[simp] theorem new_metric_value : (examon_metric.new d e i nm g).metric_value = -1 := rfl
@[simp] theorem new_metric_accumulated :
    (examon_metric.new d e i nm g).metric_accumulated = -1 := rfl
@[simp] theorem new_erg_unit : (examon_metric.new d e i nm g).erg_unit = e := rfl
@[simp] theorem new_do_gather_data : (examon_metric.new d e i nm g).do_gather_data = g := rfl
@[simp] theorem new_gathered_data : (examon_metric.new d e i nm g).gathered_data = [] := rfl

end fresh

/-- With the sample collaborators the option parser keeps the defaults. -/
theorem new_sample_acc_strategy (e : ℚ) (i : Int) (nm : String) (g : Bool) :
    (examon_metric.new sampleDeps e i nm g).acc_strategy = ACCUMULATION_AVG := by
  unfold examon_metric.new
  cases find_first_of nm ';' <;> rfl

theorem new_sample_scale_mul (e : ℚ) (i : Int) (nm : String) (g : Bool) :
    (examon_metric.new sampleDeps e i nm g).scale_mul = 1 := by
  unfold examon_metric.new
  cases find_first_of nm ';' <;> rfl

theorem scan_eq_reading (s : ScanResult) (h : s.values_read = 2) :
    s = reading s.read_value s.read_timestamp := by
  cases s; simp only [reading] at *; rw [h]

/-- An undecodable payload leaves the metric as it is. -/
theorem handle_undecodable (m : examon_metric) (n : Int) (s : ScanResult)
    (h : s.values_read ≠ 2) : handle_message m n s = m := by
  have h2 : ¬ (2 = s.values_read) := fun h' => h h'.symm
  unfold handle_message
  rw [if_neg h2]

/-- While Learning, a burst of duplicate-timestamp readings only counts topics. -/
theorem learning_burst_fields (t : ℚ) (rs : List (Int × ℚ)) :
    ∀ m : examon_metric, m.metric_iterations = 1 → m.metric_timestamp = t →
      (ingest m (burst t rs)).metric_iterations = 1 ∧
      (ingest m (burst t rs)).metric_timestamp = t ∧
      (ingest m (burst t rs)).metric_topic_count = m.metric_topic_count + (rs.length : Int) ∧
      (ingest m (burst t rs)).metric_accumulated = m.metric_accumulated ∧
      (ingest m (burst t rs)).metric_value = m.metric_value ∧
      (ingest m (burst t rs)).acc_strategy = m.acc_strategy ∧
      (ingest m (burst t rs)).metric_type = m.metric_type ∧
      (ingest m (burst t rs)).erg_unit = m.erg_unit ∧
      (ingest m (burst t rs)).scale_mul = m.scale_mul ∧
      (ingest m (burst t rs)).gathered_data = m.gathered_data := by
  induction rs with
  | nil => intro m h1 h2; simp [burst, ingest_nil, h1, h2]
  | cons r rs ih =>
    intro m h1 h2
    obtain ⟨hv, hts, hit, htc, hacc, -, hst, hty, herg, hsc, -, hgd⟩ :=
      handle_dup_learning_fields m r.1 r.2 t h2.symm h1
    rw [burst_cons, ingest_cons]
    obtain ⟨a1, a2, a3, a4, a5, a6, a7, a8, a9, a10⟩ := ih _ hit hts
    refine ⟨a1, a2, ?_, a4.trans hacc, a5.trans hv, a6.trans hst, a7.trans hty,
      a8.trans herg, a9.trans hsc, a10.trans hgd⟩
    rw [a3, htc]; simp only [List.length_cons, Nat.cast_add, Nat.cast_one]; ring

/-- The very first burst: a reading with a new timestamp on a metric that has
seen nothing, followed by duplicates. -/
theorem first_burst_fields (m : examon_metric) (t : ℚ) (r : Int × ℚ) (rs : List (Int × ℚ))
    (h0 : m.metric_iterations = 0) (ht : t ≠ m.metric_timestamp) :
    (ingest m (burst t (r :: rs))).metric_iterations = 1 ∧
    (ingest m (burst t (r :: rs))).metric_timestamp = t ∧
    (ingest m (burst t (r :: rs))).metric_topic_count =
      m.metric_topic_count + (rs.length : Int) ∧
    (ingest m (burst t (r :: rs))).metric_accumulated = m.metric_accumulated ∧
    (ingest m (burst t (r :: rs))).acc_strategy = m.acc_strategy ∧
    (ingest m (burst t (r :: rs))).metric_type = m.metric_type ∧
    (ingest m (burst t (r :: rs))).erg_unit = m.erg_unit ∧
    (ingest m (burst t (r :: rs))).scale_mul = m.scale_mul := by
  obtain ⟨-, hts, hit, htc, hacc, -, hst, hty, herg, hsc, -⟩ :=
    handle_new_fields m r.1 r.2 t ht
  rw [burst_cons, ingest_cons]
  obtain ⟨a1, a2, a3, a4, -, a6, a7, a8, a9, -⟩ :=
    learning_burst_fields t rs _ (by rw [hit, h0]; rfl) hts
  exact ⟨a1, a2, by rw [a3, htc], a4.trans hacc, a6.trans hst, a7.trans hty,
    a8.trans herg, a9.trans hsc⟩

/-- In Steady state no message changes the topic count, and Steady is never left. -/
theorem steady_step (m : examon_metric) (n : Int) (s : ScanResult)
    (h : 1 < m.metric_iterations) :
    1 < (handle_message m n s).metric_iterations ∧
    (handle_message m n s).metric_topic_count = m.metric_topic_count := by
  by_cases hs : s.values_read = 2
  · rw [scan_eq_reading s hs]
    by_cases ht : s.read_timestamp = m.metric_timestamp
    · obtain ⟨-, -, hit, htc, -⟩ :=
        handle_dup_steady_fields m n s.read_value s.read_timestamp ht (by omega)
      rw [hit, htc]; exact ⟨h, rfl⟩
    · obtain ⟨-, -, hit, htc, -⟩ := handle_new_fields m n s.read_value s.read_timestamp ht
      rw [hit, htc]; exact ⟨by omega, rfl⟩
  · rw [handle_undecodable m n s hs]; exact ⟨h, rfl⟩

theorem steady_ingest (evs : List Event) :
    ∀ m : examon_metric, 1 < m.metric_iterations →
      1 < (ingest m evs).metric_iterations ∧
      (ingest m evs).metric_topic_count = m.metric_topic_count := by
  induction evs with
  | nil => intro m h; exact ⟨h, rfl⟩
  | cons ev evs ih =>
    intro m h
    obtain ⟨h1, h2⟩ := steady_step m ev.1 ev.2 h
    rw [ingest_cons]
    obtain ⟨h3, h4⟩ := ih _ h1
    exact ⟨h3, h4.trans h2⟩

theorem burst_append (t : ℚ) (xs ys : List (Int × ℚ)) :
    burst t (xs ++ ys) = burst t xs ++ burst t ys := by
  simp [burst]

/-- A run of duplicate-timestamp readings in Steady state: counters afterwards. -/
theorem steady_burst_fields (t : ℚ) (rs : List (Int × ℚ)) :
    ∀ m : examon_metric, m.metric_timestamp = t → m.metric_iterations ≠ 1 →
      (ingest m (burst t rs)).metric_timestamp = t ∧
      (ingest m (burst t rs)).metric_iterations = m.metric_iterations ∧
      (ingest m (burst t rs)).metric_topic_count = m.metric_topic_count ∧
      (ingest m (burst t rs)).metric_sub_iterations =
        m.metric_sub_iterations + (rs.length : Int) := by
  induction rs with
  | nil => intro m h1 _; simp [burst, ingest_nil, h1]
  | cons r rs ih =>
    intro m h1 h2
    obtain ⟨-, hts, hit, htc, -, hsub, -⟩ := handle_dup_steady_fields m r.1 r.2 t h1.symm h2
    rw [burst_cons, ingest_cons]
    obtain ⟨a1, a2, a3, a4⟩ := ih _ hts (by rw [hit]; exact h2)
    refine ⟨a1, a2.trans hit, a3.trans htc, ?_⟩
    rw [a4, hsub]; simp only [List.length_cons, Nat.cast_add, Nat.cast_one]; ring

/-- A run of duplicate-timestamp readings in Steady state that stays below the
topic count leaves `metric_accumulated` alone. -/
theorem steady_burst_incomplete (t : ℚ) (rs : List (Int × ℚ)) :
    ∀ m : examon_metric, m.metric_timestamp = t → m.metric_iterations ≠ 1 →
      m.metric_sub_iterations + (rs.length : Int) < m.metric_topic_count →
      (ingest m (burst t rs)).metric_accumulated = m.metric_accumulated := by
  induction rs with
  | nil => intro m _ _ _; rfl
  | cons r rs ih =>
    intro m h1 h2 h3
    simp only [List.length_cons, Nat.cast_add, Nat.cast_one] at h3
    obtain ⟨-, hts, hit, htc, hacc, hsub, -⟩ :=
      handle_dup_steady_fields m r.1 r.2 t h1.symm h2
    rw [burst_cons, ingest_cons, ih _ hts (by rw [hit]; exact h2) (by rw [hsub, htc]; omega),
      hacc, if_neg (by omega)]

/-- Part of C5 for one message: `metric_accumulated` changes only on a
duplicate-timestamp reading that brings `metric_sub_iterations` to the topic count. -/
theorem accumulated_changes_only_on_completion (m : examon_metric) (n : Int) (s : ScanResult)
    (h : (handle_message m n s).metric_accumulated ≠ m.metric_accumulated) :
    s.values_read = 2 ∧ s.read_timestamp = m.metric_timestamp ∧
    (handle_message m n s).metric_sub_iterations = (handle_message m n s).metric_topic_count := by
  by_cases hs : s.values_read = 2
  · refine ⟨hs, ?_⟩
    rw [scan_eq_reading s hs] at h ⊢
    by_cases ht : s.read_timestamp = m.metric_timestamp
    · refine ⟨ht, ?_⟩
      by_cases hit : m.metric_iterations = 1
      · obtain ⟨-, -, -, -, hacc, -⟩ :=
          handle_dup_learning_fields m n s.read_value s.read_timestamp ht hit
        exact absurd hacc h
      · obtain ⟨-, -, -, htc, hacc, hsub, -⟩ :=
          handle_dup_steady_fields m n s.read_value s.read_timestamp ht hit
        rw [hsub, htc]
        by_contra hne
        rw [if_neg hne] at hacc
        exact h hacc
    · obtain ⟨-, -, -, -, hacc, -⟩ := handle_new_fields m n s.read_value s.read_timestamp ht
      exact absurd hacc h
  · rw [handle_undecodable m n s hs] at h
    exact absurd rfl h

/-- C5. `metric_accumulated` is overwritten only at cycle completion: a message
that changes it carries the timestamp `metric_timestamp` and leaves
`metric_sub_iterations == metric_topic_count`. Hence a cycle (readings at one new
timestamp) with fewer readings than `metric_topic_count` leaves it unchanged, and so
does every reading of a cycle beyond the first `metric_topic_count` ones. -/
theorem C5_accumulated_only_at_completion (m : examon_metric) (n : Int) (s : ScanResult)
    (t : ℚ) (few many : List (Int × ℚ)) (extra : Int × ℚ) :
    ((handle_message m n s).metric_accumulated ≠ m.metric_accumulated →
      s.read_timestamp = m.metric_timestamp ∧
      (handle_message m n s).metric_sub_iterations =
        (handle_message m n s).metric_topic_count) ∧
    (t ≠ m.metric_timestamp → (few.length : Int) < m.metric_topic_count →
      (ingest m (burst t few)).metric_accumulated = m.metric_accumulated) ∧
    (t ≠ m.metric_timestamp → m.metric_topic_count ≤ (many.length : Int) →
      (ingest m (burst t (many ++ [extra]))).metric_accumulated =
        (ingest m (burst t many)).metric_accumulated) := by
  refine ⟨fun h => (accumulated_changes_only_on_completion m n s h).2, ?_, ?_⟩
  · intro ht hlen
    cases few with
    | nil => rfl
    | cons r rs =>
      by_cases h0 : m.metric_iterations = 0
      · exact (first_burst_fields m t r rs h0 ht).2.2.2.1
      · obtain ⟨-, hts, hit, htc, hacc, hsub, -⟩ := handle_new_fields m r.1 r.2 t ht
        simp only [List.length_cons, Nat.cast_add, Nat.cast_one] at hlen
        rw [burst_cons, ingest_cons,
          steady_burst_incomplete t rs _ hts (by rw [hit]; omega) (by rw [hsub, htc]; omega), hacc]
  · intro ht hlen
    rw [burst_append, ingest_append]
    cases many with
    | nil =>
      exact (handle_new_fields m extra.1 extra.2 t ht).2.2.2.2.1
    | cons r rs =>
      simp only [List.length_cons, Nat.cast_add, Nat.cast_one] at hlen
      show (handle_message (ingest m (burst t (r :: rs))) extra.1
        (reading extra.2 t)).metric_accumulated = _
      by_cases h0 : m.metric_iterations = 0
      · obtain ⟨hit, hts, -⟩ := first_burst_fields m t r rs h0 ht
        exact (handle_dup_learning_fields _ extra.1 extra.2 t hts.symm hit).2.2.2.2.1
      · obtain ⟨-, hts, hit, htc, -, hsub, -⟩ := handle_new_fields m r.1 r.2 t ht
        have hit1 : (handle_message m r.1 (reading r.2 t)).metric_iterations ≠ 1 := by
          rw [hit]; omega
        obtain ⟨a1, a2, a3, a4⟩ := steady_burst_fields t rs _ hts hit1
        rw [← ingest_cons m (r.1, reading r.2 t), ← burst_cons] at a1 a2 a3 a4
        obtain ⟨-, -, -, -, hacc, -⟩ :=
          handle_dup_steady_fields (ingest m (burst t (r :: rs))) extra.1 extra.2 t a1.symm
            (by rw [a2]; exact hit1)
        rw [hacc, if_neg (by rw [a3, a4, hsub, htc]; omega)]

/-- Witness for C5: in a 3-source AVERAGE metric with two readings of the cycle
at timestamp 6 ingested, the third reading changes `metric_accumulated`; one reading
at timestamp 7 does not, and neither does a fourth reading after three at timestamp 7. -/
theorem C5_accumulated_only_at_completion_witness :
    (handle_message (sampleMetric ACCUMULATION_AVG OTHER 30 6 (-1) 2 3 2) 0
        (reading 30 6)).metric_sub_iterations =
      (handle_message (sampleMetric ACCUMULATION_AVG OTHER 30 6 (-1) 2 3 2) 0
        (reading 30 6)).metric_topic_count ∧
    (ingest (sampleMetric ACCUMULATION_AVG OTHER 30 6 (-1) 2 3 2)
      (burst 7 [(1, 4)])).metric_accumulated = -1 ∧
    (ingest (sampleMetric ACCUMULATION_AVG OTHER 30 6 (-1) 2 3 2)
      (burst 7 ([(1, 4), (2, 5), (3, 6)] ++ [(4, 7)]))).metric_accumulated =
    (ingest (sampleMetric ACCUMULATION_AVG OTHER 30 6 (-1) 2 3 2)
      (burst 7 [(1, 4), (2, 5), (3, 6)])).metric_accumulated := by
  obtain ⟨h1, h2, h3⟩ := C5_accumulated_only_at_completion
    (sampleMetric ACCUMULATION_AVG OTHER 30 6 (-1) 2 3 2) 0 (reading 30 6) 7 [(1, 4)]
    [(1, 4), (2, 5), (3, 6)] (4, 7)
  have hchg : (handle_message (sampleMetric ACCUMULATION_AVG OTHER 30 6 (-1) 2 3 2) 0
      (reading 30 6)).metric_accumulated ≠
      (sampleMetric ACCUMULATION_AVG OTHER 30 6 (-1) 2 3 2).metric_accumulated := by
    rw [(handle_dup_steady_fields (sampleMetric ACCUMULATION_AVG OTHER 30 6 (-1) 2 3 2) 0 30 6
      rfl (by decide)).2.2.2.2.1]
    norm_num [sampleMetric, fold_final, fold_step]
  exact ⟨(h1 hchg).2, h2 (by norm_num [sampleMetric]) (by decide),
    h3 (by norm_num [sampleMetric]) (by decide)⟩


theorem readings_cons (r : Int × ℚ × ℚ) (l : List (Int × ℚ × ℚ)) :
    readings (r :: l) = (r.1, reading r.2.1 r.2.2) :: readings l := rfl

/-- A run of readings whose timestamps each differ from the one before keeps a
single-source metric single-source and tracks the latest value. -/
theorem distinct_run_fields (pre : List (Int × ℚ × ℚ)) (n : Int) (v t : ℚ) :
    ∀ m : examon_metric, m.metric_topic_count = 1 →
      List.Chain (fun a b => a ≠ b) m.metric_timestamp
        ((pre ++ [(n, v, t)]).map (fun r => r.2.2)) →
      (ingest m (readings (pre ++ [(n, v, t)]))).metric_topic_count = 1 ∧
      (ingest m (readings (pre ++ [(n, v, t)]))).metric_value = v ∧
      (ingest m (readings (pre ++ [(n, v, t)]))).metric_iterations =
        m.metric_iterations + (pre.length : Int) + 1 ∧
      (ingest m (readings (pre ++ [(n, v, t)]))).metric_type = m.metric_type ∧
      (ingest m (readings (pre ++ [(n, v, t)]))).erg_unit = m.erg_unit ∧
      (ingest m (readings (pre ++ [(n, v, t)]))).scale_mul = m.scale_mul := by
  induction pre with
  | nil =>
    intro m htc hch
    simp only [List.nil_append, List.map_cons, List.map_nil, List.chain_cons] at hch
    obtain ⟨hv, -, hit, htc', -, -, -, hty, herg, hsc, -⟩ :=
      handle_new_fields m n v t (Ne.symm hch.1)
    simp only [List.nil_append, readings_cons, readings, List.map_nil, ingest_cons, ingest_nil,
      List.length_nil, Nat.cast_zero, add_zero]
    exact ⟨htc'.trans htc, hv, hit, hty, herg, hsc⟩
  | cons r pre ih =>
    intro m htc hch
    simp only [List.cons_append, List.map_cons, List.chain_cons] at hch
    obtain ⟨-, hts, hit, htc', -, -, -, hty, herg, hsc, -⟩ :=
      handle_new_fields m r.1 r.2.1 r.2.2 (Ne.symm hch.1)
    simp only [List.cons_append, readings_cons, ingest_cons]
    obtain ⟨a1, a2, a3, a4, a5, a6⟩ := ih (handle_message m r.1 (reading r.2.1 r.2.2))
      (htc'.trans htc) (by rw [hts]; exact hch.2)
    refine ⟨a1, a2, ?_, a4.trans hty, a5.trans herg, a6.trans hsc⟩
    rw [a3, hit]; simp only [List.length_cons, Nat.cast_add, Nat.cast_one]; ring

/-- No message lowers the topic count. -/
theorem topic_count_mono (m : examon_metric) (n : Int) (s : ScanResult) :
    m.metric_topic_count ≤ (handle_message m n s).metric_topic_count := by
  by_cases hs : s.values_read = 2
  · rw [scan_eq_reading s hs]
    by_cases ht : s.read_timestamp = m.metric_timestamp
    · by_cases hit : m.metric_iterations = 1
      · rw [(handle_dup_learning_fields m n s.read_value s.read_timestamp ht hit).2.2.2.1]
        omega
      · rw [(handle_dup_steady_fields m n s.read_value s.read_timestamp ht hit).2.2.2.1]
    · rw [(handle_new_fields m n s.read_value s.read_timestamp ht).2.2.2.1]
  · rw [handle_undecodable m n s hs]

/-- Every reachable state has a topic count of at least 1. -/
theorem reachable_topic_count_pos {m : examon_metric} (h : Reachable m) :
    1 ≤ m.metric_topic_count := by
  induction h with
  | fresh d e i nm g => simp
  | message n s _ ih => exact le_trans ih (topic_count_mono _ n s)
  | unit u _ ih => exact ih
  | gather b _ ih => exact ih

/-- C7. Validity predicate: in every state reachable from a freshly constructed
metric by `handle_message`, `set_erg_unit` and `set_gather_data`, `has_value` is true
exactly when `metric_iterations > 1`, the metric is not ENERGY-class or `erg_unit > 0`,
and `metric_topic_count == 1` or `metric_accumulated != -1.0`. -/
theorem C7_validity_predicate (m : examon_metric) (h : Reachable m) :
    has_value m = true ↔
      1 < m.metric_iterations ∧ (m.metric_type ≠ ENERGY ∨ 0 < m.erg_unit) ∧
      (m.metric_topic_count = 1 ∨ m.metric_accumulated ≠ -1) := by
  have hpos := reachable_topic_count_pos h
  unfold has_value
  by_cases h1 : 1 < m.metric_iterations
  · by_cases h2 : m.metric_type ≠ ENERGY ∨ 0 < m.erg_unit
    · by_cases h3 : 1 < m.metric_topic_count
      · have h4 : m.metric_topic_count ≠ 1 := by omega
        simp only [h1, h2, h3, if_true, true_and, h4, false_or, decide_eq_true_eq]
        exact ⟨fun hne heq => hne heq.symm, fun hne heq => hne heq.symm⟩
      · have h4 : m.metric_topic_count = 1 := by omega
        simp only [h1, h2, h3, if_true, if_false, true_and, h4, true_or]
        simp
    · simp only [h1, h2, if_true, if_false, false_and, and_false]
      exact ⟨fun hf => absurd hf (by decide), fun hf => hf.elim⟩
  · simp only [h1, if_false, false_and]
    exact ⟨fun hf => absurd hf (by decide), fun hf => hf.elim⟩

/-- Witness for C7: a fresh OTHER-class metric after readings at two distinct
timestamps is reachable and reports a value. -/
theorem C7_validity_predicate_witness :
    Reachable (handle_message (handle_message
      (examon_metric.new sampleDeps 0 7 "cpu/0/temp" false) 0 (reading 40 1)) 1 (reading 41 2)) ∧
    (has_value (handle_message (handle_message
      (examon_metric.new sampleDeps 0 7 "cpu/0/temp" false) 0 (reading 40 1)) 1 (reading 41 2))
      = true ↔
     1 < (handle_message (handle_message
      (examon_metric.new sampleDeps 0 7 "cpu/0/temp" false) 0 (reading 40 1)) 1
        (reading 41 2)).metric_iterations ∧
     ((handle_message (handle_message
      (examon_metric.new sampleDeps 0 7 "cpu/0/temp" false) 0 (reading 40 1)) 1
        (reading 41 2)).metric_type ≠ ENERGY ∨
      0 < (handle_message (handle_message
      (examon_metric.new sampleDeps 0 7 "cpu/0/temp" false) 0 (reading 40 1)) 1
        (reading 41 2)).erg_unit) ∧
     ((handle_message (handle_message
      (examon_metric.new sampleDeps 0 7 "cpu/0/temp" false) 0 (reading 40 1)) 1
        (reading 41 2)).metric_topic_count = 1 ∨
      (handle_message (handle_message
      (examon_metric.new sampleDeps 0 7 "cpu/0/temp" false) 0 (reading 40 1)) 1
        (reading 41 2)).metric_accumulated ≠ -1)) :=
  ⟨Reachable.message 1 (reading 41 2) (Reachable.message 0 (reading 40 1)
      (Reachable.fresh sampleDeps 0 7 "cpu/0/temp" false)),
   C7_validity_predicate _ (Reachable.message 1 (reading 41 2) (Reachable.message 0 (reading 40 1)
      (Reachable.fresh sampleDeps 0 7 "cpu/0/temp" false)))⟩

/-- C8. Reported value formula: `get_latest_value` is `base * u * scale_mul`, where
`base` is `metric_accumulated` if `metric_topic_count > 1` and `metric_value`
otherwise, and `u` is `erg_unit` for an ENERGY metric with `erg_unit > 0` and 1
otherwise; for an ENERGY metric `set_erg_unit(2.0)` makes the next `get_latest_value`
equal to `base * 2.0 * scale_mul`. -/
theorem C8_reported_value_formula (m : examon_metric) :
    get_latest_value m =
      (if 1 < m.metric_topic_count then m.metric_accumulated else m.metric_value) *
      (if m.metric_type = ENERGY ∧ 0 < m.erg_unit then m.erg_unit else 1) * m.scale_mul ∧
    (m.metric_type = ENERGY →
      get_latest_value (set_erg_unit m 2) =
        (if 1 < m.metric_topic_count then m.metric_accumulated else m.metric_value) * 2 *
          m.scale_mul) := by
  constructor
  · unfold get_latest_value
    by_cases hty : m.metric_type = ENERGY
    · by_cases he : 0 < m.erg_unit
      · simp only [hty, he, if_true, and_self]
      · simp only [hty, he, if_true, if_false, and_false, mul_one]
    · simp only [hty, if_false, false_and, mul_one]
  · intro hty
    unfold get_latest_value set_erg_unit
    simp only [hty, if_true]
    rw [if_pos (by norm_num)]

/-- Witness for C8: an ENERGY metric with a fan-in of 3 and `metric_accumulated` 20;
after `set_erg_unit(2.0)` the reported value is 40. -/
theorem C8_reported_value_formula_witness :
    get_latest_value (set_erg_unit (sampleMetric ACCUMULATION_AVG ENERGY 30 6 20 2 3 3) 2) =
      40 := by
  rw [(C8_reported_value_formula (sampleMetric ACCUMULATION_AVG ENERGY 30 6 20 2 3 3)).2 rfl]
  norm_num [sampleMetric]


/-- The sample collaborators classify `cpu/0/erg_pkg` as ENERGY. -/
theorem new_sample_erg_pkg_type (e : ℚ) (i : Int) (g : Bool) :
    (examon_metric.new sampleDeps e i "cpu/0/erg_pkg" g).metric_type = ENERGY := by
  rfl

/-- No message changes the unit factor or the metric class. -/
theorem handle_message_unit_type (m : examon_metric) (n : Int) (s : ScanResult) :
    (handle_message m n s).erg_unit = m.erg_unit ∧
    (handle_message m n s).metric_type = m.metric_type := by
  by_cases hs : s.values_read = 2
  · rw [scan_eq_reading s hs]
    by_cases ht : s.read_timestamp = m.metric_timestamp
    · by_cases hit : m.metric_iterations = 1
      · obtain ⟨-, -, -, -, -, -, -, hty, herg, -⟩ :=
          handle_dup_learning_fields m n s.read_value s.read_timestamp ht hit
        exact ⟨herg, hty⟩
      · obtain ⟨-, -, -, -, -, -, -, hty, herg, -⟩ :=
          handle_dup_steady_fields m n s.read_value s.read_timestamp ht hit
        exact ⟨herg, hty⟩
    · obtain ⟨-, -, -, -, -, -, -, hty, herg, -⟩ :=
        handle_new_fields m n s.read_value s.read_timestamp ht
      exact ⟨herg, hty⟩
  · rw [handle_undecodable m n s hs]; exact ⟨rfl, rfl⟩

theorem ingest_unit_type (evs : List Event) :
    ∀ m : examon_metric, (ingest m evs).erg_unit = m.erg_unit ∧
      (ingest m evs).metric_type = m.metric_type := by
  induction evs with
  | nil => intro m; exact ⟨rfl, rfl⟩
  | cons ev evs ih =>
    intro m
    obtain ⟨h1, h2⟩ := handle_message_unit_type m ev.1 ev.2
    obtain ⟨h3, h4⟩ := ih (handle_message m ev.1 ev.2)
    rw [ingest_cons]
    exact ⟨h3.trans h1, h4.trans h2⟩

/-- Energy gating holds whenever the uninitialised `erg_unit` happens to be
non-positive: an ENERGY metric then never reports a value, whatever it ingests. -/
theorem energy_gated_when_unit_nonpositive (d : Deps) (e : ℚ) (i : Int) (nm : String) (g : Bool)
    (hty : (examon_metric.new d e i nm g).metric_type = ENERGY) (he : e ≤ 0)
    (evs : List Event) :
    has_value (ingest (examon_metric.new d e i nm g) evs) = false := by
  obtain ⟨h1, h2⟩ := ingest_unit_type evs (examon_metric.new d e i nm g)
  unfold has_value
  rw [h1, h2, hty, new_erg_unit]
  have : ¬ (0 < e) := not_lt.mpr he
  simp [this]

/-- C9, evaluated at the failing input: an ENERGY-class metric constructed over
storage in which the uninitialised `erg_unit` holds 1.0, and on which `set_erg_unit`
is never called, reports a valid value after readings at two distinct timestamps. -/
theorem C9_energy_gating_uninitialised_unit :
    (examon_metric.new sampleDeps 1 7 "cpu/0/erg_pkg" false).metric_type = ENERGY ∧
    has_value (ingest (examon_metric.new sampleDeps 1 7 "cpu/0/erg_pkg" false)
      (readings ([(0, 40, 1)] ++ [(1, 41, 2)]))) = true := by
  refine ⟨new_sample_erg_pkg_type _ _ _, ?_⟩
  obtain ⟨h1, -, h3, h4, h5, -⟩ := distinct_run_fields [(0, 40, 1)] 1 41 2
    (examon_metric.new sampleDeps 1 7 "cpu/0/erg_pkg" false) rfl (by simp)
  unfold has_value
  rw [h1, h3, h4, h5]
  simp

/-- C10. Malformed payload is a no-op: a message from which `sscanf` does not
obtain exactly two numbers leaves the whole metric state unchanged, so a message
sequence ends in the same state as the sequence with the undecodable messages
removed. -/
theorem C10_malformed_payload_noop (m : examon_metric) (n : Int) (s : ScanResult)
    (h : s.values_read ≠ 2) :
    handle_message m n s = m ∧
    ∀ evs : List Event,
      ingest m evs = ingest m (evs.filter (fun ev => decide (ev.2.values_read = 2))) := by
  refine ⟨handle_undecodable m n s h, ?_⟩
  intro evs
  induction evs generalizing m with
  | nil => rfl
  | cons ev evs ih =>
    by_cases hev : ev.2.values_read = 2
    · rw [List.filter_cons_of_pos (by simpa using hev), ingest_cons, ingest_cons]
      exact ih _
    · rw [List.filter_cons_of_neg (by simpa using hev), ingest_cons,
        handle_undecodable m ev.1 ev.2 hev]
      exact ih _

/-- Witness for C10: a payload holding a value but no timestamp (`sscanf` returns 1)
is dropped, also between two decodable readings. -/
theorem C10_malformed_payload_noop_witness :
    handle_message (sampleMetric ACCUMULATION_AVG OTHER 30 6 (-1) 2 3 2) 0 ⟨1, 3, -1⟩ =
      sampleMetric ACCUMULATION_AVG OTHER 30 6 (-1) 2 3 2 ∧
    ingest (sampleMetric ACCUMULATION_AVG OTHER 30 6 (-1) 2 3 2)
        [(1, reading 4 7), (2, ⟨1, 3, -1⟩), (3, reading 5 7)] =
      ingest (sampleMetric ACCUMULATION_AVG OTHER 30 6 (-1) 2 3 2)
        [(1, reading 4 7), (3, reading 5 7)] := by
  obtain ⟨h1, h2⟩ := C10_malformed_payload_noop
    (sampleMetric ACCUMULATION_AVG OTHER 30 6 (-1) 2 3 2) 0 ⟨1, 3, -1⟩ (by decide)
  refine ⟨h1, ?_⟩
  rw [h2 [(1, reading 4 7), (2, ⟨1, 3, -1⟩), (3, reading 5 7)]]
  rfl


/-- What `push_latest_value` does to the history. -/
theorem push_gathered_data (m : examon_metric) (n : Int) (b : Bool) :
    (push_latest_value m n b).gathered_data =
      m.gathered_data ++
        history_entries m n (if b = true then m.metric_accumulated else m.metric_value) := by
  unfold push_latest_value history_entries
  split_ifs <;> simp

/-- History after a reading with a new timestamp. -/
theorem handle_new_gathered (m : examon_metric) (n : Int) (v t : ℚ)
    (ht : t ≠ m.metric_timestamp) :
    (handle_message m n (reading v t)).gathered_data =
      if m.do_gather_data = true ∧ 1 < m.metric_iterations + 1 ∧ 1 = m.metric_topic_count then
        m.gathered_data ++ history_entries m n v
      else m.gathered_data := by
  rw [handle_new_eq m n v t ht]
  split_ifs
  · show (push_latest_value _ n false).gathered_data = _
    rw [push_gathered_data]
    rfl
  · rfl

/-- History after a duplicate-timestamp reading in Steady state. -/
theorem handle_dup_steady_gathered (m : examon_metric) (n : Int) (v t : ℚ)
    (ht : t = m.metric_timestamp) (hit : m.metric_iterations ≠ 1) :
    (handle_message m n (reading v t)).gathered_data =
      if m.metric_sub_iterations + 1 = m.metric_topic_count ∧ m.do_gather_data = true then
        m.gathered_data ++ history_entries m n
          (fold_final m.acc_strategy (fold_step m.acc_strategy m.metric_value v)
            m.metric_topic_count)
      else m.gathered_data := by
  rw [handle_dup_steady_eq m n v t ht hit]
  by_cases hc : m.metric_sub_iterations + 1 = m.metric_topic_count
  · by_cases hg : m.do_gather_data = true
    · have hb : (m.metric_sub_iterations + 1 == m.metric_topic_count && m.do_gather_data) = true := by
        simp [hc, hg]
      rw [if_pos hb, if_pos ⟨hc, hg⟩]
      show (push_latest_value _ n true).gathered_data = _
      rw [push_gathered_data]
      simp only [if_true, accumulate_gathered_data, accumulate_metric_accumulated]
      have hd : (m.metric_sub_iterations + 1 == m.metric_topic_count) = true := by simp [hc]
      rw [hd]
      simp only [if_true, history_entries, accumulate_metric_type, accumulate_erg_unit,
        accumulate_scale_mul]
    · have hb : ¬ (m.metric_sub_iterations + 1 == m.metric_topic_count && m.do_gather_data) = true := by
        simp [hg]
      rw [if_neg hb, if_neg (fun h => hg h.2)]
      show (accumulate _ v _).gathered_data = _
      rw [accumulate_gathered_data]
  · have hb : ¬ (m.metric_sub_iterations + 1 == m.metric_topic_count && m.do_gather_data) = true := by
      simp [hc]
    rw [if_neg hb, if_neg (fun h => hc h.1)]
    show (accumulate _ v _).gathered_data = _
    rw [accumulate_gathered_data]

theorem history_entries_length_le (m : examon_metric) (n : Int) (w : ℚ) :
    (history_entries m n w).length ≤ 1 := by
  unfold history_entries
  split_ifs <;> simp


/-- C11 as stated fails: an ENERGY-class metric with capture on whose unit factor
is not positive completes a cycle without the history growing. -/
theorem C11_history_growth_counterexample :
    ¬ (∀ (m : examon_metric) (n : Int) (v t : ℚ), m.do_gather_data = true →
        1 < m.metric_iterations → t = m.metric_timestamp →
        m.metric_sub_iterations + 1 = m.metric_topic_count →
        (handle_message m n (reading v t)).gathered_data.length =
          m.gathered_data.length + 1) := by
  intro h
  have h1 := h (set_erg_unit (sampleMetric ACCUMULATION_AVG ENERGY 30 6 (-1) 2 3 2) 0) 0 30 6
    rfl (by decide) rfl (by decide)
  rw [handle_dup_steady_gathered _ 0 30 6 rfl (by decide)] at h1
  simp [history_entries, set_erg_unit, sampleMetric] at h1

/-- C11, amended. With capture on, a duplicate-timestamp reading in Steady state that
brings `metric_sub_iterations` to `metric_topic_count` lengthens the history by
exactly one when the metric is not ENERGY-class or its `erg_unit` is positive; for an
ENERGY-class metric whose `erg_unit` is not positive it leaves the history as it is. -/
theorem C11_history_growth_amended (m : examon_metric) (n : Int) (v t : ℚ)
    (hg : m.do_gather_data = true) (hit : 1 < m.metric_iterations)
    (ht : t = m.metric_timestamp)
    (hc : m.metric_sub_iterations + 1 = m.metric_topic_count) :
    (m.metric_type ≠ ENERGY ∨ 0 < m.erg_unit →
      (handle_message m n (reading v t)).gathered_data.length = m.gathered_data.length + 1) ∧
    (m.metric_type = ENERGY ∧ m.erg_unit ≤ 0 →
      (handle_message m n (reading v t)).gathered_data = m.gathered_data) := by
  rw [handle_dup_steady_gathered m n v t ht (by omega), if_pos ⟨hc, hg⟩]
  unfold history_entries
  constructor
  · intro hty
    rcases hty with hty | hty
    · rw [if_neg hty]; simp
    · by_cases hE : m.metric_type = ENERGY
      · rw [if_pos hE, if_pos hty]; simp
      · rw [if_neg hE]; simp
  · intro hty
    rw [if_pos hty.1, if_neg (not_lt.mpr hty.2)]
    simp

/-- Witness for C11 (amended): the third reading of a cycle in a 3-source metric of
OTHER class adds one history entry. -/
theorem C11_history_growth_amended_witness :
    (handle_message (sampleMetric ACCUMULATION_AVG OTHER 30 6 (-1) 2 3 2) 0
      (reading 30 6)).gathered_data.length =
    (sampleMetric ACCUMULATION_AVG OTHER 30 6 (-1) 2 3 2).gathered_data.length + 1 :=
  (C11_history_growth_amended (sampleMetric ACCUMULATION_AVG OTHER 30 6 (-1) 2 3 2) 0 30 6
    rfl (by decide) rfl (by decide)).1 (Or.inl (by decide))

/-- C12. History is append-only under ingest: after any `handle_message` call the
history is the history before followed by at most one new entry, and with capture
off it is unchanged. -/
theorem C12_history_append_only (m : examon_metric) (n : Int) (s : ScanResult) :
    ∃ l : List (Int × ℚ),
      (handle_message m n s).gathered_data = m.gathered_data ++ l ∧ l.length ≤ 1 ∧
      (m.do_gather_data = false → l = []) := by
  by_cases hs : s.values_read = 2
  · rw [scan_eq_reading s hs]
    by_cases ht : s.read_timestamp = m.metric_timestamp
    · by_cases hit : m.metric_iterations = 1
      · refine ⟨[], ?_, by simp, fun _ => rfl⟩
        rw [(handle_dup_learning_fields m n s.read_value s.read_timestamp ht hit).2.2.2.2.2.2.2.2.2.2.2]
        simp
      · rw [handle_dup_steady_gathered m n s.read_value s.read_timestamp ht hit]
        split_ifs with hc
        · exact ⟨_, rfl, history_entries_length_le _ _ _, fun hf => by rw [hf] at hc; simp at hc⟩
        · exact ⟨[], by simp, by simp, fun _ => rfl⟩
    · rw [handle_new_gathered m n s.read_value s.read_timestamp ht]
      split_ifs with hc
      · exact ⟨_, rfl, history_entries_length_le _ _ _, fun hf => by rw [hf] at hc; simp at hc⟩
      · exact ⟨[], by simp, by simp, fun _ => rfl⟩
  · rw [handle_undecodable m n s hs]
    exact ⟨[], by simp, by simp, fun _ => rfl⟩

/-- Witness for C12: with capture switched off, a cycle-completing reading leaves
the history unchanged. -/
theorem C12_history_append_only_witness :
    (handle_message (set_gather_data (sampleMetric ACCUMULATION_AVG OTHER 30 6 (-1) 2 3 2) false)
      0 (reading 30 6)).gathered_data =
    (set_gather_data (sampleMetric ACCUMULATION_AVG OTHER 30 6 (-1) 2 3 2) false).gathered_data := by
  obtain ⟨l, h1, -, h3⟩ := C12_history_append_only
    (set_gather_data (sampleMetric ACCUMULATION_AVG OTHER 30 6 (-1) 2 3 2) false) 0 (reading 30 6)
  rw [h1, h3 rfl]
  simp


theorem find_first_of_absent (s : String) (c : Char) (h : c ∉ s.data) :
    find_first_of s c = none := by
  unfold find_first_of
  have : ¬ (List.indexOf c s.data < s.data.length) := by
    rw [List.indexOf_lt_length]; exact h
  simp only [this, if_false]

theorem find_first_of_split (s : String) (c : Char) (pre post : List Char)
    (hpre : c ∉ pre) (hs : s.data = pre ++ c :: post) :
    find_first_of s c = some pre.length := by
  unfold find_first_of
  have hidx : List.indexOf c s.data = pre.length := by
    rw [hs, List.indexOf_append_of_not_mem hpre, List.indexOf_cons_self, Nat.add_zero]
  have hlt : List.indexOf c s.data < s.data.length := by
    rw [List.indexOf_lt_length, hs]; simp
  rw [if_pos hlt, hidx]

/-- Declaration parsing for an arbitrary `basename`: the declaration is split at the
first `;`, the options start from AVERAGE / DOUBLE / 1.0, and `name` is what `basename`
leaves in the buffer that held the part before the first `;`. -/
theorem declaration_parsing_split (d : Deps) (e : ℚ) (i : Int) (nm : String) (g : Bool) :
    (';' ∉ nm.data →
      (examon_metric.new d e i nm g).name = (d.basename nm).2 ∧
      (examon_metric.new d e i nm g).acc_strategy = ACCUMULATION_AVG ∧
      (examon_metric.new d e i nm g).metric_datatype = DOUBLE ∧
      (examon_metric.new d e i nm g).scale_mul = 1) ∧
    (∀ pre post : List Char, ';' ∉ pre → nm.data = pre ++ ';' :: post →
      (examon_metric.new d e i nm g).name = (d.basename ⟨pre⟩).2 ∧
      (⟨(examon_metric.new d e i nm g).acc_strategy,
        (examon_metric.new d e i nm g).metric_datatype,
        (examon_metric.new d e i nm g).scale_mul⟩ : MetricOptions) =
        d.parse_metric_options ⟨post⟩ ⟨ACCUMULATION_AVG, DOUBLE, 1⟩) := by
  constructor
  · intro h
    unfold examon_metric.new
    rw [find_first_of_absent nm ';' h]
    exact ⟨rfl, rfl, rfl, rfl⟩
  · intro pre post hpre hs
    have hpost : substr nm (pre.length + 1) none = ⟨post⟩ := by
      unfold substr
      simp only [hs]
      congr 1
      rw [List.drop_append_eq_append_drop]
      simp
    have hname : substr nm 0 (some pre.length) = ⟨pre⟩ := by
      unfold substr
      simp only [hs, List.drop_zero]
      congr 1
      simp
    unfold examon_metric.new
    rw [find_first_of_split nm ';' pre post hpre hs]
    simp only [hpost, hname]
    exact ⟨trivial, trivial⟩

/-- The glibc `basename` leaves alone a buffer whose C string does not end in `/`. -/
theorem xpg_basename_keeps_buffer (s : String)
    (h : (s.data.takeWhile (fun c => c != Char.ofNat 0)).getLast? ≠ some '/') :
    (xpg_basename s).2 = s := by
  unfold xpg_basename
  simp only
  split_ifs <;> rfl

/-- C13, evaluated at the failing input: the declaration `cpu/0/erg_pkg/` holds no
`;`, yet the constructed metric's `name` is not that string: `basename` has written NUL
over the trailing `/` in `name`'s own buffer. -/
theorem C13_name_with_trailing_slash :
    ';' ∉ "cpu/0/erg_pkg/".data ∧
    (examon_metric.new sampleDeps 0 7 "cpu/0/erg_pkg/" false).name =
      ⟨"cpu/0/erg_pkg".data ++ [Char.ofNat 0]⟩ ∧
    (examon_metric.new sampleDeps 0 7 "cpu/0/erg_pkg/" false).name ≠ "cpu/0/erg_pkg/" ∧
    (examon_metric.new sampleDeps 0 7 "cpu/0/erg_pkg/" false).full_topic = "cpu/0/erg_pkg/" := by
  decide

/-- C14. Reads are pure: any sequence of `has_value` and `get_latest_value` calls
leaves the metric as it was, and either read returns afterwards what it returned
before. -/
theorem C14_reads_are_pure (m : examon_metric) (cs : List ReadCall) :
    (has_value_call m).2 = m ∧ (get_latest_value_call m).2 = m ∧
    read_calls m cs = m ∧
    (has_value_call (read_calls m cs)).1 = (has_value_call m).1 ∧
    (get_latest_value_call (read_calls m cs)).1 = (get_latest_value_call m).1 := by
  have h : read_calls m cs = m := by
    induction cs with
    | nil => rfl
    | cons c cs ih =>
      cases c <;> exact ih
  exact ⟨rfl, rfl, h, by rw [h], by rw [h]⟩


/-- The sample collaborators classify `cpu/0/temp` as OTHER. -/
theorem new_sample_temp_type (e : ℚ) (i : Int) (g : Bool) :
    (examon_metric.new sampleDeps e i "cpu/0/temp" g).metric_type = OTHER := by
  rfl

/-- The reported value depends only on these six members. -/
theorem get_latest_value_congr (a b : examon_metric)
    (h1 : a.metric_topic_count = b.metric_topic_count)
    (h2 : a.metric_accumulated = b.metric_accumulated)
    (h3 : a.metric_value = b.metric_value) (h4 : a.metric_type = b.metric_type)
    (h5 : a.erg_unit = b.erg_unit) (h6 : a.scale_mul = b.scale_mul) :
    get_latest_value a = get_latest_value b := by
  unfold get_latest_value
  rw [h1, h2, h3, h4, h5, h6]

/-- The part of C15 that holds: with a topic count above 1, readings that arrive
after `metric_sub_iterations` has reached the topic count leave the reported value
alone. -/
theorem extra_readings_keep_value_multi_source (t : ℚ) (rs : List (Int × ℚ)) :
    ∀ m : examon_metric, m.metric_timestamp = t → m.metric_iterations ≠ 1 →
      1 < m.metric_topic_count → m.metric_topic_count ≤ m.metric_sub_iterations →
      get_latest_value (ingest m (burst t rs)) = get_latest_value m := by
  induction rs with
  | nil => intro m _ _ _ _; rfl
  | cons r rs ih =>
    intro m h1 h2 h3 h4
    obtain ⟨-, hts, hit, htc, hacc, hsub, -, hty, herg, hsc, -⟩ :=
      handle_dup_steady_fields m r.1 r.2 t h1.symm h2
    rw [if_neg (by omega)] at hacc
    rw [burst_cons, ingest_cons,
      ih _ hts (by rw [hit]; exact h2) (by rw [htc]; exact h3) (by rw [htc, hsub]; omega)]
    unfold get_latest_value
    rw [htc, hacc, hty, herg, hsc, if_pos h3, if_pos h3]

/-- C15, evaluated at the failing input: a fresh single-source AVERAGE metric of
OTHER class reads 39 at timestamp 1 and 40 at timestamp 2 and reports 40; a further
reading 41 at timestamp 2 makes it report 81. -/
theorem C15_extra_reading_single_source :
    1 < (ingest (examon_metric.new sampleDeps 0 7 "cpu/0/temp" false)
      (readings ([(0, 39, 1)] ++ [(1, 40, 2)]))).metric_iterations ∧
    (ingest (examon_metric.new sampleDeps 0 7 "cpu/0/temp" false)
      (readings ([(0, 39, 1)] ++ [(1, 40, 2)]))).metric_topic_count = 1 ∧
    get_latest_value (ingest (examon_metric.new sampleDeps 0 7 "cpu/0/temp" false)
      (readings ([(0, 39, 1)] ++ [(1, 40, 2)]))) = 40 ∧
    get_latest_value (handle_message (ingest (examon_metric.new sampleDeps 0 7 "cpu/0/temp" false)
      (readings ([(0, 39, 1)] ++ [(1, 40, 2)]))) 2 (reading 41 2)) = 81 := by
  obtain ⟨h1, h2, h3, h4, h5, h6⟩ := distinct_run_fields [(0, 39, 1)] 1 40 2
    (examon_metric.new sampleDeps 0 7 "cpu/0/temp" false) rfl (by simp)
  have hts : (ingest (examon_metric.new sampleDeps 0 7 "cpu/0/temp" false)
      (readings ([(0, 39, 1)] ++ [(1, 40, 2)]))).metric_timestamp = 2 :=
    (handle_new_fields _ 1 40 2 (by
      rw [(handle_new_fields _ 0 39 1 (by simp)).2.1]; norm_num)).2.1
  have hst : (ingest (examon_metric.new sampleDeps 0 7 "cpu/0/temp" false)
      (readings ([(0, 39, 1)] ++ [(1, 40, 2)]))).acc_strategy = ACCUMULATION_AVG := by
    show (handle_message (handle_message _ 0 (reading 39 1)) 1 (reading 40 2)).acc_strategy = _
    rw [(handle_new_fields _ 1 40 2 (by
      rw [(handle_new_fields _ 0 39 1 (by simp)).2.1]; norm_num)).2.2.2.2.2.2.1,
      (handle_new_fields _ 0 39 1 (by simp)).2.2.2.2.2.2.1]
    exact new_sample_acc_strategy _ _ _ _
  have hit : (ingest (examon_metric.new sampleDeps 0 7 "cpu/0/temp" false)
      (readings ([(0, 39, 1)] ++ [(1, 40, 2)]))).metric_iterations ≠ 1 := by
    rw [h3]; decide
  obtain ⟨hv', -, -, htc', -, -, -, hty', herg', hsc', -⟩ :=
    handle_dup_steady_fields _ 2 41 2 hts.symm hit
  refine ⟨by rw [h3]; decide, h1, ?_, ?_⟩
  · unfold get_latest_value
    rw [h1, h2, h4, h6, new_sample_temp_type, new_sample_scale_mul]
    simp
  · unfold get_latest_value
    rw [htc', hv', hty', hsc', h1, h2, h4, h6, hst, new_sample_temp_type, new_sample_scale_mul]
    simp [fold_step]
    norm_num


/-- C16 as stated fails: a single-source metric of OTHER class holding 40 that reads
41 at a new timestamp records 41, not the prior 40. -/
theorem C16_single_source_history_counterexample :
    ¬ (∀ (m : examon_metric) (n : Int) (v t : ℚ), m.metric_topic_count = 1 →
        m.metric_type ≠ ENERGY → m.do_gather_data = true → 1 ≤ m.metric_iterations →
        t ≠ m.metric_timestamp →
        (handle_message m n (reading v t)).gathered_data =
          m.gathered_data ++ [(n, m.metric_value * m.scale_mul)]) := by
  intro h
  have h1 := h (sampleMetric ACCUMULATION_AVG OTHER 40 2 (-1) 2 1 1) 0 41 3 rfl (by decide) rfl
    (by decide) (by norm_num [sampleMetric])
  rw [handle_new_gathered _ 0 41 3 (by norm_num [sampleMetric])] at h1
  norm_num [history_entries, sampleMetric] at h1
  rw [if_neg (by decide)] at h1
  norm_num at h1

/-- C16, amended. For a single-source metric (`metric_topic_count == 1`) of non-ENERGY
class with capture on and `metric_iterations >= 1`, a reading `(v_new, t)` with `t`
different from `metric_timestamp` appends exactly one history entry, whose value is
`v_new` times `scale_mul`: the reading that has just arrived. -/
theorem C16_single_source_history_amended (m : examon_metric) (n : Int) (v t : ℚ)
    (htc : m.metric_topic_count = 1) (hty : m.metric_type ≠ ENERGY)
    (hg : m.do_gather_data = true) (hit : 1 ≤ m.metric_iterations)
    (ht : t ≠ m.metric_timestamp) :
    (handle_message m n (reading v t)).gathered_data =
      m.gathered_data ++ [(n, v * m.scale_mul)] := by
  rw [handle_new_gathered m n v t ht, if_pos ⟨hg, by omega, htc.symm⟩]
  unfold history_entries
  rw [if_neg hty]

/-- Witness for C16 (amended): the metric holding 40 that reads 41 at a new
timestamp records 41. -/
theorem C16_single_source_history_amended_witness :
    (handle_message (sampleMetric ACCUMULATION_AVG OTHER 40 2 (-1) 2 1 1) 0
      (reading 41 3)).gathered_data = [(0, 41)] := by
  rw [C16_single_source_history_amended (sampleMetric ACCUMULATION_AVG OTHER 40 2 (-1) 2 1 1)
    0 41 3 rfl (by decide) rfl (by decide) (by norm_num [sampleMetric])]
  norm_num [sampleMetric]

/-- The part of C17 that holds: while Learning (`metric_iterations == 1`) a
duplicate-timestamp reading leaves `metric_value`, `metric_accumulated` and the
history as they are. -/
theorem learning_duplicate_keeps_values (m : examon_metric) (n : Int) (v t : ℚ)
    (ht : t = m.metric_timestamp) (hit : m.metric_iterations = 1) :
    (handle_message m n (reading v t)).metric_value = m.metric_value ∧
    (handle_message m n (reading v t)).metric_accumulated = m.metric_accumulated ∧
    (handle_message m n (reading v t)).gathered_data = m.gathered_data := by
  obtain ⟨h1, -, -, -, h5, -, -, -, -, -, -, h12⟩ := handle_dup_learning_fields m n v t ht hit
  exact ⟨h1, h5, h12⟩

/-- C17, evaluated at the failing input: a freshly constructed metric of OTHER class
with capture on (`metric_iterations == 0`, `metric_timestamp == 0`) that receives the
payload `5;0` applies the AVERAGE strategy to the initial `-1.0`: `metric_value` and
`metric_accumulated` become 4 and the history gets an entry. -/
theorem C17_reduction_on_fresh_metric :
    (examon_metric.new sampleDeps 0 7 "cpu/0/temp" true).metric_iterations = 0 ∧
    (examon_metric.new sampleDeps 0 7 "cpu/0/temp" true).metric_timestamp = 0 ∧
    (examon_metric.new sampleDeps 0 7 "cpu/0/temp" true).metric_value = -1 ∧
    (examon_metric.new sampleDeps 0 7 "cpu/0/temp" true).metric_accumulated = -1 ∧
    (handle_message (examon_metric.new sampleDeps 0 7 "cpu/0/temp" true) 0
      (reading 5 0)).metric_value = 4 ∧
    (handle_message (examon_metric.new sampleDeps 0 7 "cpu/0/temp" true) 0
      (reading 5 0)).metric_accumulated = 4 ∧
    (handle_message (examon_metric.new sampleDeps 0 7 "cpu/0/temp" true) 0
      (reading 5 0)).gathered_data = [(0, 4)] := by
  obtain ⟨hv, -, -, -, hacc, -⟩ :=
    handle_dup_steady_fields (examon_metric.new sampleDeps 0 7 "cpu/0/temp" true) 0 5 0 rfl
      (by decide)
  have hg := handle_dup_steady_gathered (examon_metric.new sampleDeps 0 7 "cpu/0/temp" true)
    0 5 0 rfl (by decide)
  refine ⟨rfl, rfl, rfl, rfl, ?_, ?_, ?_⟩
  · rw [hv, new_sample_acc_strategy]; norm_num [fold_step]
  · rw [hacc, new_sample_acc_strategy]; norm_num [fold_step, fold_final]
  · rw [hg, new_sample_acc_strategy]
    simp only [history_entries, new_sample_temp_type, new_sample_scale_mul]
    norm_num [fold_step, fold_final]
    decide

/-- What one message does to the three counters. -/
theorem counters_step (m : examon_metric) (n : Int) (s : ScanResult) :
    m.metric_topic_count ≤ (handle_message m n s).metric_topic_count ∧
    m.metric_iterations ≤ (handle_message m n s).metric_iterations ∧
    (s.values_read = 2 → s.read_timestamp ≠ m.metric_timestamp →
      (handle_message m n s).metric_sub_iterations = 1) ∧
    (s.values_read = 2 → s.read_timestamp = m.metric_timestamp →
      (handle_message m n s).metric_sub_iterations = m.metric_sub_iterations + 1) := by
  by_cases hs : s.values_read = 2
  · rw [scan_eq_reading s hs]
    by_cases ht : s.read_timestamp = m.metric_timestamp
    · by_cases hit : m.metric_iterations = 1
      · obtain ⟨-, -, h3, h4, -, h6, -⟩ :=
          handle_dup_learning_fields m n s.read_value s.read_timestamp ht hit
        exact ⟨by rw [h4]; omega, by rw [h3, hit], fun _ hne => absurd ht hne, fun _ _ => h6⟩
      · obtain ⟨-, -, h3, h4, -, h6, -⟩ :=
          handle_dup_steady_fields m n s.read_value s.read_timestamp ht hit
        exact ⟨by rw [h4], by rw [h3], fun _ hne => absurd ht hne, fun _ _ => h6⟩
    · obtain ⟨-, -, h3, h4, -, h6, -⟩ := handle_new_fields m n s.read_value s.read_timestamp ht
      exact ⟨by rw [h4], by rw [h3]; omega, fun _ _ => h6, fun _ heq => absurd heq ht⟩
  · exact ⟨by rw [handle_undecodable m n s hs], by rw [handle_undecodable m n s hs],
      fun h => absurd h hs, fun h => absurd h hs⟩

/-- Every reachable state has a non-negative iteration count. -/
theorem reachable_iterations_nonneg {m : examon_metric} (h : Reachable m) :
    0 ≤ m.metric_iterations := by
  induction h with
  | fresh d e i nm g => simp
  | message n s _ ih => exact le_trans ih (counters_step _ n s).2.1
  | unit u _ ih => exact ih
  | gather b _ ih => exact ih

/-- C18. Counter invariants: in every reachable state `metric_topic_count >= 1` and
`metric_iterations >= 0`; `handle_message` never decreases either of them, sets
`metric_sub_iterations` to exactly 1 on a reading with a new timestamp and increases
it by exactly 1 on a reading with the timestamp `metric_timestamp`. -/
theorem C18_counter_invariants (m : examon_metric) (h : Reachable m) (n : Int)
    (s : ScanResult) :
    1 ≤ m.metric_topic_count ∧ 0 ≤ m.metric_iterations ∧
    m.metric_topic_count ≤ (handle_message m n s).metric_topic_count ∧
    m.metric_iterations ≤ (handle_message m n s).metric_iterations ∧
    (s.values_read = 2 → s.read_timestamp ≠ m.metric_timestamp →
      (handle_message m n s).metric_sub_iterations = 1) ∧
    (s.values_read = 2 → s.read_timestamp = m.metric_timestamp →
      (handle_message m n s).metric_sub_iterations = m.metric_sub_iterations + 1) :=
  ⟨reachable_topic_count_pos h, reachable_iterations_nonneg h, counters_step m n s⟩

/-- Witness for C18: on a fresh metric that has read 40 at timestamp 1, a second
reading at timestamp 1 raises `metric_sub_iterations` from 1 to 2. -/
theorem C18_counter_invariants_witness :
    (handle_message (handle_message (examon_metric.new sampleDeps 0 7 "cpu/0/temp" false) 0
      (reading 40 1)) 1 (reading 41 1)).metric_sub_iterations =
    (handle_message (examon_metric.new sampleDeps 0 7 "cpu/0/temp" false) 0
      (reading 40 1)).metric_sub_iterations + 1 :=
  (C18_counter_invariants
    (handle_message (examon_metric.new sampleDeps 0 7 "cpu/0/temp" false) 0 (reading 40 1))
    (Reachable.message 0 (reading 40 1) (Reachable.fresh sampleDeps 0 7 "cpu/0/temp" false))
    1 (reading 41 1)).2.2.2.2.2 rfl
    (handle_new_fields (examon_metric.new sampleDeps 0 7 "cpu/0/temp" false) 0 40 1
      (by simp)).2.1.symm


/-- The value of the entry that `push_latest_value` appends for the written value `w`. -/
theorem history_entry_value (m : examon_metric) (n : Int) (w : ℚ) (entry : Int × ℚ)
    (h : history_entries m n w = [entry]) :
    entry.2 =
      (if m.metric_type = ENERGY then (if 0 < m.erg_unit then w * m.erg_unit else w) else w) *
        m.scale_mul := by
  unfold history_entries at h
  by_cases hty : m.metric_type = ENERGY
  · by_cases he : 0 < m.erg_unit
    · rw [if_pos hty, if_pos he] at h
      rw [if_pos hty, if_pos he, ← List.singleton_inj.mp h]
    · rw [if_pos hty, if_neg he] at h
      exact absurd h (by simp)
  · rw [if_neg hty] at h
    rw [if_neg hty, ← List.singleton_inj.mp h]

theorem get_latest_value_unfold (m : examon_metric) :
    get_latest_value m =
      (if m.metric_type = ENERGY then
        (if 0 < m.erg_unit then
          (if 1 < m.metric_topic_count then m.metric_accumulated else m.metric_value) * m.erg_unit
         else (if 1 < m.metric_topic_count then m.metric_accumulated else m.metric_value))
       else (if 1 < m.metric_topic_count then m.metric_accumulated else m.metric_value)) *
        m.scale_mul := rfl

theorem fold_final_one (s : ACCUMULATION_STRATEGY) (a : ℚ) : fold_final s a 1 = a := by
  cases s <;> simp [fold_final]

/-- C19. History agrees with the synchronous value: in every reachable state, when a
`handle_message` call appends an entry to the history, the value of that entry is
what `get_latest_value` returns on the state right after the call. -/
theorem C19_history_agrees_with_latest_value (m : examon_metric) (h : Reachable m) (n : Int)
    (s : ScanResult) (entry : Int × ℚ)
    (happ : (handle_message m n s).gathered_data = m.gathered_data ++ [entry]) :
    entry.2 = get_latest_value (handle_message m n s) := by
  have hpos := reachable_topic_count_pos h
  have hno : ∀ {x : examon_metric}, x.gathered_data = m.gathered_data →
      x.gathered_data ≠ m.gathered_data ++ [entry] := by
    intro x hx hc
    rw [hx] at hc
    have := congrArg List.length hc
    simp at this
  by_cases hs : s.values_read = 2
  · rw [scan_eq_reading s hs] at happ ⊢
    by_cases ht : s.read_timestamp = m.metric_timestamp
    · by_cases hit : m.metric_iterations = 1
      · exact absurd happ (hno
          (handle_dup_learning_fields m n s.read_value s.read_timestamp ht hit).2.2.2.2.2.2.2.2.2.2.2)
      · have hg := handle_dup_steady_gathered m n s.read_value s.read_timestamp ht hit
        obtain ⟨hv, -, -, htc, hacc, -, -, hty, herg, hsc, -⟩ :=
          handle_dup_steady_fields m n s.read_value s.read_timestamp ht hit
        by_cases hc : m.metric_sub_iterations + 1 = m.metric_topic_count ∧ m.do_gather_data = true
        · rw [if_pos hc] at hg
          rw [if_pos hc.1] at hacc
          rw [hg] at happ
          rw [history_entry_value m n _ entry (List.append_cancel_left happ),
            get_latest_value_unfold, htc, hacc, hv, hty, herg, hsc]
          by_cases h1 : 1 < m.metric_topic_count
          · simp only [h1, if_true]
          · have h2 : m.metric_topic_count = 1 := by omega
            simp only [h2, lt_self_iff_false, if_false, fold_final_one]
        · rw [if_neg hc] at hg
          exact absurd happ (hno hg)
    · have hg := handle_new_gathered m n s.read_value s.read_timestamp ht
      obtain ⟨hv, -, -, htc, -, -, -, hty, herg, hsc, -⟩ :=
        handle_new_fields m n s.read_value s.read_timestamp ht
      by_cases hc : m.do_gather_data = true ∧ 1 < m.metric_iterations + 1 ∧
          1 = m.metric_topic_count
      · rw [if_pos hc] at hg
        rw [hg] at happ
        rw [history_entry_value m n _ entry (List.append_cancel_left happ),
          get_latest_value_unfold, htc, hv, hty, herg, hsc, ← hc.2.2]
        simp only [lt_self_iff_false, if_false]
      · rw [if_neg hc] at hg
        exact absurd happ (hno hg)
  · rw [handle_undecodable m n s hs] at happ
    exact absurd happ (hno rfl)

/-- Witness for C19: a fresh single-source metric of OTHER class with capture on reads
40 at timestamp 1 and 41 at timestamp 2; the second reading appends the entry 41, the
value reported right afterwards. -/
theorem C19_history_agrees_with_latest_value_witness :
    (handle_message (handle_message
      (examon_metric.new sampleDeps 0 7 "cpu/0/temp" true) 0 (reading 40 1)) 1
        (reading 41 2)).gathered_data =
      (handle_message (examon_metric.new sampleDeps 0 7 "cpu/0/temp" true) 0
        (reading 40 1)).gathered_data ++ [(1, 41)] ∧
    get_latest_value (handle_message (handle_message
      (examon_metric.new sampleDeps 0 7 "cpu/0/temp" true) 0 (reading 40 1)) 1 (reading 41 2))
      = 41 := by
  have h1 := handle_new_fields (examon_metric.new sampleDeps 0 7 "cpu/0/temp" true) 0 40 1
    (by simp)
  have hg1 := handle_new_gathered (examon_metric.new sampleDeps 0 7 "cpu/0/temp" true) 0 40 1
    (by simp)
  rw [if_neg (by simp)] at hg1
  obtain ⟨-, hts, hit, htc, -, -, -, hty, -, hsc, hgd⟩ := h1
  have hg2 := handle_new_gathered
    (handle_message (examon_metric.new sampleDeps 0 7 "cpu/0/temp" true) 0 (reading 40 1))
    1 41 2 (by rw [hts]; norm_num)
  rw [if_pos ⟨by rw [hgd]; rfl, by rw [hit]; decide, by rw [htc]; rfl⟩] at hg2
  have hent : history_entries
      (handle_message (examon_metric.new sampleDeps 0 7 "cpu/0/temp" true) 0 (reading 40 1))
      1 41 = [(1, 41)] := by
    unfold history_entries
    rw [hty, hsc, new_sample_temp_type, new_sample_scale_mul, if_neg (by decide)]
    norm_num
  rw [hent] at hg2
  have h := C19_history_agrees_with_latest_value
    (handle_message (examon_metric.new sampleDeps 0 7 "cpu/0/temp" true) 0 (reading 40 1))
    (Reachable.message 0 (reading 40 1) (Reachable.fresh sampleDeps 0 7 "cpu/0/temp" true))
    1 (reading 41 2) (1, 41) hg2
  exact ⟨hg2, h.symm⟩

/-- Each id handed out by `put_metric` is above every id handed out before and is
not negative. -/
theorem put_metric_id_fresh (p : examon_sync_plugin) (metric : String) :
    0 ≤ (put_metric p metric).1 ∧ ∀ x ∈ p.metricIds, x < (put_metric p metric).1 := by
  have key : ∀ (l : List Int) (b : Int),
      b ≤ l.foldl (fun b x => if x > b then x else b) b ∧
      ∀ x ∈ l, x ≤ l.foldl (fun b x => if x > b then x else b) b := by
    intro l
    induction l with
    | nil => intro b; simp
    | cons a l ih =>
      intro b
      obtain ⟨h1, h2⟩ := ih (if a > b then a else b)
      simp only [List.foldl_cons]
      refine ⟨le_trans ?_ h1, ?_⟩
      · split_ifs <;> omega
      · intro x hx
        rcases List.mem_cons.mp hx with hxa | hxl
        · rw [hxa]; refine le_trans ?_ h1; split_ifs <;> omega
        · exact h2 x hxl
  obtain ⟨h1, h2⟩ := key p.metricIds (-1)
  simp only [put_metric]
  exact ⟨by omega, fun x hx => by have := h2 x hx; omega⟩

/-- C20, evaluated at the failing input: on a freshly constructed plugin the accepted
name `tsc` is registered under the id 0, the value that `add_metric` also returns
for a name it rejects. -/
theorem C20_first_accepted_metric_gets_zero :
    (add_metric examon_sync_plugin.new "tsc").1 = 0 ∧
    (add_metric examon_sync_plugin.new "tsc").2.metricIds = [0] ∧
    (add_metric examon_sync_plugin.new "tsc").2.metricNames = ["tsc"] ∧
    (add_metric examon_sync_plugin.new "Watt").1 = 0 ∧
    (add_metric examon_sync_plugin.new "Watt").2 = examon_sync_plugin.new := by
  decide

namespace IEEE

section dbl_frame
variable {F : Type} (ops : DoubleOps F) (m : examon_metric F) (n : Int) (b : Bool) (v : F)

@[simp] theorem dbl_push_metric_value :
    (push_latest_value ops m n b).metric_value = m.metric_value := by
  unfold push_latest_value; split_ifs <;> rfl
@[simp] theorem dbl_push_metric_timestamp :
    (push_latest_value ops m n b).metric_timestamp = m.metric_timestamp := by
  unfold push_latest_value; split_ifs <;> rfl
@[simp] theorem dbl_push_metric_iterations :
    (push_latest_value ops m n b).metric_iterations = m.metric_iterations := by
  unfold push_latest_value; split_ifs <;> rfl
@[simp] theorem dbl_push_metric_topic_count :
    (push_latest_value ops m n b).metric_topic_count = m.metric_topic_count := by
  unfold push_latest_value; split_ifs <;> rfl
@[simp] theorem dbl_push_metric_accumulated :
    (push_latest_value ops m n b).metric_accumulated = m.metric_accumulated := by
  unfold push_latest_value; split_ifs <;> rfl
@[simp] theorem dbl_push_metric_sub_iterations :
    (push_latest_value ops m n b).metric_sub_iterations = m.metric_sub_iterations := by
  unfold push_latest_value; split_ifs <;> rfl
@[simp] theorem dbl_push_acc_strategy :
    (push_latest_value ops m n b).acc_strategy = m.acc_strategy := by
  unfold push_latest_value; split_ifs <;> rfl

@[simp] theorem dbl_accumulate_metric_timestamp :
    (accumulate ops m v b).metric_timestamp = m.metric_timestamp := by
  unfold accumulate; split <;> split_ifs <;> rfl
@[simp] theorem dbl_accumulate_metric_iterations :
    (accumulate ops m v b).metric_iterations = m.metric_iterations := by
  unfold accumulate; split <;> split_ifs <;> rfl
@[simp] theorem dbl_accumulate_metric_topic_count :
    (accumulate ops m v b).metric_topic_count = m.metric_topic_count := by
  unfold accumulate; split <;> split_ifs <;> rfl
@[simp] theorem dbl_accumulate_metric_sub_iterations :
    (accumulate ops m v b).metric_sub_iterations = m.metric_sub_iterations := by
  unfold accumulate; split <;> split_ifs <;> rfl
@[simp] theorem dbl_accumulate_acc_strategy :
    (accumulate ops m v b).acc_strategy = m.acc_strategy := by
  unfold accumulate; split <;> split_ifs <;> rfl
@[simp] theorem dbl_accumulate_do_gather_data :
    (accumulate ops m v b).do_gather_data = m.do_gather_data := by
  unfold accumulate; split <;> split_ifs <;> rfl

end dbl_frame

theorem dbl_accumulate_metric_value {F : Type} (ops : DoubleOps F) (m : examon_metric F)
    (v : F) (b : Bool) :
    (accumulate ops m v b).metric_value = fold_step ops m.acc_strategy m.metric_value v := by
  unfold accumulate fold_step
  split <;> rename_i hs <;> simp only [hs] <;> split_ifs <;> rfl

theorem dbl_accumulate_metric_accumulated {F : Type} (ops : DoubleOps F)
    (m : examon_metric F) (v : F) (b : Bool) :
    (accumulate ops m v b).metric_accumulated =
      if b = true then
        fold_final ops m.acc_strategy (fold_step ops m.acc_strategy m.metric_value v)
          m.metric_topic_count
      else m.metric_accumulated := by
  unfold accumulate fold_final fold_step
  split <;> rename_i hs <;> simp only [hs] <;> split_ifs <;> rfl

/-- Unfolding of `handle_message` on a reading whose timestamp compares `!=` to
`metric_timestamp`. -/
theorem dbl_handle_new_eq {F : Type} (ops : DoubleOps F) (m : examon_metric F) (n : Int)
    (v t : F) (ht : ops.ne t m.metric_timestamp = true) :
    handle_message ops m n (reading v t) =
      { (if m.do_gather_data = true ∧ 1 < m.metric_iterations + 1 ∧ 1 = m.metric_topic_count then
          push_latest_value ops { m with
            metric_elapsed := ops.sub t m.metric_timestamp
            metric_value := v
            metric_iterations := m.metric_iterations + 1
            metric_sub_iterations := 1 } n false
         else { m with
            metric_elapsed := ops.sub t m.metric_timestamp
            metric_value := v
            metric_iterations := m.metric_iterations + 1
            metric_sub_iterations := 1 }) with metric_timestamp := t } := by
  unfold handle_message reading
  simp only [if_true, ht]
  split_ifs <;> first | rfl | (exfalso; tauto)

/-- Unfolding of `handle_message` on a duplicate-timestamp reading while Learning. -/
theorem dbl_handle_dup_learning_eq {F : Type} (ops : DoubleOps F) (m : examon_metric F)
    (n : Int) (v t : F) (ht : ops.ne t m.metric_timestamp = false)
    (hit : m.metric_iterations = 1) :
    handle_message ops m n (reading v t) =
      { m with metric_sub_iterations := m.metric_sub_iterations + 1
               metric_topic_count := m.metric_topic_count + 1
               metric_timestamp := t } := by
  unfold handle_message reading
  simp only [if_true, ht, Bool.false_eq_true, if_false, hit]

/-- Unfolding of `handle_message` on a duplicate-timestamp reading in Steady state. -/
theorem dbl_handle_dup_steady_eq {F : Type} (ops : DoubleOps F) (m : examon_metric F)
    (n : Int) (v t : F) (ht : ops.ne t m.metric_timestamp = false)
    (hit : m.metric_iterations ≠ 1) :
    handle_message ops m n (reading v t) =
      { (if (m.metric_sub_iterations + 1 == m.metric_topic_count && m.do_gather_data) = true then
          push_latest_value ops
            (accumulate ops { m with metric_sub_iterations := m.metric_sub_iterations + 1 }
              v (m.metric_sub_iterations + 1 == m.metric_topic_count)) n true
         else accumulate ops { m with metric_sub_iterations := m.metric_sub_iterations + 1 }
            v (m.metric_sub_iterations + 1 == m.metric_topic_count)) with
        metric_timestamp := t } := by
  have h1 : ¬ (1 = m.metric_iterations) := fun h => hit h.symm
  unfold handle_message reading
  simp only [if_true, ht, Bool.false_eq_true, if_false, h1, dbl_accumulate_do_gather_data]

/-- Effect of a reading with a new timestamp, field by field. -/
theorem dbl_handle_new_fields {F : Type} (ops : DoubleOps F) (m : examon_metric F) (n : Int)
    (v t : F) (ht : ops.ne t m.metric_timestamp = true) :
    (handle_message ops m n (reading v t)).metric_value = v ∧
    (handle_message ops m n (reading v t)).metric_timestamp = t ∧
    (handle_message ops m n (reading v t)).metric_iterations = m.metric_iterations + 1 ∧
    (handle_message ops m n (reading v t)).metric_topic_count = m.metric_topic_count ∧
    (handle_message ops m n (reading v t)).metric_accumulated = m.metric_accumulated ∧
    (handle_message ops m n (reading v t)).metric_sub_iterations = 1 ∧
    (handle_message ops m n (reading v t)).acc_strategy = m.acc_strategy := by
  rw [dbl_handle_new_eq ops m n v t ht]
  split_ifs <;> simp

/-- Effect of a duplicate-timestamp reading while Learning, field by field. -/
theorem dbl_handle_dup_learning_fields {F : Type} (ops : DoubleOps F) (m : examon_metric F)
    (n : Int) (v t : F) (ht : ops.ne t m.metric_timestamp = false)
    (hit : m.metric_iterations = 1) :
    (handle_message ops m n (reading v t)).metric_value = m.metric_value ∧
    (handle_message ops m n (reading v t)).metric_timestamp = t ∧
    (handle_message ops m n (reading v t)).metric_iterations = 1 ∧
    (handle_message ops m n (reading v t)).metric_topic_count = m.metric_topic_count + 1 ∧
    (handle_message ops m n (reading v t)).metric_accumulated = m.metric_accumulated ∧
    (handle_message ops m n (reading v t)).metric_sub_iterations =
      m.metric_sub_iterations + 1 ∧
    (handle_message ops m n (reading v t)).acc_strategy = m.acc_strategy := by
  rw [dbl_handle_dup_learning_eq ops m n v t ht hit]
  simp [hit]

/-- Effect of a duplicate-timestamp reading in Steady state, field by field. -/
theorem dbl_handle_dup_steady_fields {F : Type} (ops : DoubleOps F) (m : examon_metric F)
    (n : Int) (v t : F) (ht : ops.ne t m.metric_timestamp = false)
    (hit : m.metric_iterations ≠ 1) :
    (handle_message ops m n (reading v t)).metric_value =
      fold_step ops m.acc_strategy m.metric_value v ∧
    (handle_message ops m n (reading v t)).metric_timestamp = t ∧
    (handle_message ops m n (reading v t)).metric_iterations = m.metric_iterations ∧
    (handle_message ops m n (reading v t)).metric_topic_count = m.metric_topic_count ∧
    (handle_message ops m n (reading v t)).metric_accumulated =
      (if m.metric_sub_iterations + 1 = m.metric_topic_count then
        fold_final ops m.acc_strategy (fold_step ops m.acc_strategy m.metric_value v)
          m.metric_topic_count
       else m.metric_accumulated) ∧
    (handle_message ops m n (reading v t)).metric_sub_iterations =
      m.metric_sub_iterations + 1 ∧
    (handle_message ops m n (reading v t)).acc_strategy = m.acc_strategy := by
  rw [dbl_handle_dup_steady_eq ops m n v t ht hit]
  split_ifs <;> simp [dbl_accumulate_metric_value, dbl_accumulate_metric_accumulated] <;>
    intro h <;> contradiction

theorem dbl_ingest_nil {F : Type} (ops : DoubleOps F) (m : examon_metric F) :
    ingest ops m [] = m := rfl

theorem dbl_ingest_cons {F : Type} (ops : DoubleOps F) (m : examon_metric F) (e : Event F)
    (evs : List (Event F)) :
    ingest ops m (e :: evs) = ingest ops (handle_message ops m e.1 e.2) evs := rfl

theorem dbl_ingest_append {F : Type} (ops : DoubleOps F) (m : examon_metric F)
    (xs ys : List (Event F)) :
    ingest ops m (xs ++ ys) = ingest ops (ingest ops m xs) ys := by
  simp [ingest, List.foldl_append]

theorem dbl_burst_cons {F : Type} (t : F) (r : Int × F) (rs : List (Int × F)) :
    burst t (r :: rs) = (r.1, reading r.2 t) :: burst t rs := rfl


/-- A run of duplicate-timestamp readings in Steady state that ends exactly when
`metric_sub_iterations` reaches `metric_topic_count` stores the folded value. -/
theorem dbl_steady_burst_accumulated {F : Type} (ops : DoubleOps F) (t : F)
    (hnum : ops.ne t t = false) (rs : List (Int × F)) :
    ∀ m : examon_metric F, m.metric_timestamp = t → m.metric_iterations ≠ 1 → rs ≠ [] →
      m.metric_sub_iterations + (rs.length : Int) = m.metric_topic_count →
      (ingest ops m (burst t rs)).metric_accumulated =
        fold_final ops m.acc_strategy
          ((rs.map Prod.snd).foldl (fold_step ops m.acc_strategy) m.metric_value)
          m.metric_topic_count := by
  induction rs with
  | nil => intro m _ _ h; exact absurd rfl h
  | cons r rs ih =>
    intro m hts hit _ hlen
    obtain ⟨hv, hts', hit', htc', hacc', hsub', hst'⟩ :=
      dbl_handle_dup_steady_fields ops m r.1 r.2 t (by rw [hts]; exact hnum) hit
    rw [dbl_burst_cons, dbl_ingest_cons]
    by_cases hrs : rs = []
    · subst hrs
      simp only [burst, List.map_nil, dbl_ingest_nil, List.map_cons, List.foldl_cons,
        List.foldl_nil]
      rw [hacc']
      simp only [List.length_singleton, Nat.cast_one] at hlen
      simp [hlen]
    · have hlen' : (handle_message ops m r.1 (reading r.2 t)).metric_sub_iterations
          + (rs.length : Int) = (handle_message ops m r.1 (reading r.2 t)).metric_topic_count := by
        rw [hsub', htc', ← hlen]; simp only [List.length_cons, Nat.cast_add, Nat.cast_one]; ring
      rw [ih _ hts' (by rw [hit']; exact hit) hrs hlen', hst', htc', hv]
      simp only [List.map_cons, List.foldl_cons]

/-- A full cycle (one reading with a new timestamp that is a number, followed by
duplicates up to the topic count) stores the strategy's fold of the cycle's values. -/
theorem dbl_cycle_accumulated {F : Type} (ops : DoubleOps F) (m : examon_metric F) (t : F)
    (r : Int × F) (rs : List (Int × F))
    (hit : 1 ≤ m.metric_iterations) (hrs : rs ≠ [])
    (hlen : ((r :: rs).length : Int) = m.metric_topic_count)
    (ht : ops.ne t m.metric_timestamp = true) (hnum : ops.ne t t = false) :
    (ingest ops m (burst t (r :: rs))).metric_accumulated =
      fold_final ops m.acc_strategy
        ((rs.map Prod.snd).foldl (fold_step ops m.acc_strategy) r.2) m.metric_topic_count := by
  obtain ⟨hv, hts, hit', htc, -, hsub, hst⟩ := dbl_handle_new_fields ops m r.1 r.2 t ht
  rw [dbl_burst_cons, dbl_ingest_cons]
  have hlen' : (handle_message ops m r.1 (reading r.2 t)).metric_sub_iterations
      + (rs.length : Int) = (handle_message ops m r.1 (reading r.2 t)).metric_topic_count := by
    rw [hsub, htc, ← hlen]; simp only [List.length_cons, Nat.cast_add, Nat.cast_one]; ring
  rw [dbl_steady_burst_accumulated ops t hnum rs _ hts (by rw [hit']; omega) hrs hlen',
    hst, htc, hv]

/-- Readings whose timestamp is NaN (it compares `!=` to every value) each start a
cycle of their own: topic count and `metric_accumulated` stay as they are. -/
theorem dbl_nan_burst_fields {F : Type} (ops : DoubleOps F) (t : F)
    (hnan : ∀ x : F, ops.ne t x = true) (rs : List (Int × F)) :
    ∀ m : examon_metric F,
      (ingest ops m (burst t rs)).metric_topic_count = m.metric_topic_count ∧
      (ingest ops m (burst t rs)).metric_accumulated = m.metric_accumulated := by
  induction rs with
  | nil => intro m; exact ⟨rfl, rfl⟩
  | cons r rs ih =>
    intro m
    obtain ⟨-, -, -, htc, hacc, -⟩ := dbl_handle_new_fields ops m r.1 r.2 t (hnan _)
    obtain ⟨h1, h2⟩ := ih (handle_message ops m r.1 (reading r.2 t))
    rw [dbl_burst_cons, dbl_ingest_cons]
    exact ⟨h1.trans htc, h2.trans hacc⟩

theorem dbl_two_le_length {F : Type} (r : Int × F) (rs : List (Int × F)) (N : Int)
    (hN : 2 ≤ N) (hlen : ((r :: rs).length : Int) = N) : rs ≠ [] := by
  intro h
  subst h
  simp at hlen
  omega

theorem dbl_fold_step_avg {F : Type} (ops : DoubleOps F) :
    fold_step ops ACCUMULATION_AVG = ops.add := by
  funext a v; rfl

theorem dbl_fold_step_sum {F : Type} (ops : DoubleOps F) :
    fold_step ops ACCUMULATION_SUM = ops.add := by
  funext a v; rfl

/-- C1 as stated fails: three readings 10, 20, 30 that all carry a NaN timestamp (which
compares different from `metric_timestamp`) leave `metric_accumulated` at -1. -/
theorem C1_average_reduction_counterexample :
    ¬ (∀ (m : examon_metric (Option ℚ)) (t : Option ℚ) (r : Int × Option ℚ)
        (rs : List (Int × Option ℚ)),
        m.acc_strategy = ACCUMULATION_AVG → 1 ≤ m.metric_iterations →
        2 ≤ m.metric_topic_count → ((r :: rs).length : Int) = m.metric_topic_count →
        sampleOps.ne t m.metric_timestamp = true →
        (ingest sampleOps m (burst t (r :: rs))).metric_accumulated =
          sampleOps.div ((rs.map Prod.snd).foldl sampleOps.add r.2)
            (sampleOps.ofInt64 m.metric_topic_count)) := by
  intro h
  have h1 := h (sampleMetric ACCUMULATION_AVG (some 1) (some 5) (some (-1)) 1 3 3) none
    (3, some 10) [(4, some 20), (5, some 30)] rfl (by decide) (by decide) (by decide) rfl
  rw [(dbl_nan_burst_fields sampleOps none (fun _ => rfl) _ _).2] at h1
  norm_num [sampleMetric, sampleOps] at h1

/-- C1, amended. In a metric with strategy AVERAGE, `metric_iterations >= 1` and
`metric_topic_count = N >= 2`, ingesting N readings that all carry one timestamp `t`
that is a number (not NaN) and differs from `metric_timestamp` leaves
`metric_accumulated` equal to the double sum of the N values, added in arrival order,
divided by N. -/
theorem C1_average_reduction_amended {F : Type} (ops : DoubleOps F) (m : examon_metric F)
    (t : F) (r : Int × F) (rs : List (Int × F))
    (hs : m.acc_strategy = ACCUMULATION_AVG) (hit : 1 ≤ m.metric_iterations)
    (hN : 2 ≤ m.metric_topic_count)
    (hlen : ((r :: rs).length : Int) = m.metric_topic_count)
    (ht : ops.ne t m.metric_timestamp = true) (hnum : ops.ne t t = false) :
    (ingest ops m (burst t (r :: rs))).metric_accumulated =
      ops.div ((rs.map Prod.snd).foldl ops.add r.2) (ops.ofInt64 m.metric_topic_count) := by
  rw [dbl_cycle_accumulated ops m t r rs hit (dbl_two_le_length r rs _ hN hlen) hlen ht hnum,
    hs, dbl_fold_step_avg]
  rfl

/-- Witness for C1 (amended): with a fan-in of 3 learned at timestamp 5, the burst
10, 20, 30 at timestamp 6 finalizes to 20. -/
theorem C1_average_reduction_amended_witness :
    (ingest sampleOps (sampleMetric ACCUMULATION_AVG (some 1) (some 5) (some (-1)) 1 3 3)
      (burst (some 6) [(3, some 10), (4, some 20), (5, some 30)])).metric_accumulated =
      some 20 := by
  rw [C1_average_reduction_amended sampleOps
    (sampleMetric ACCUMULATION_AVG (some 1) (some 5) (some (-1)) 1 3 3) (some 6) (3, some 10)
    [(4, some 20), (5, some 30)] rfl (by decide) (by decide) (by decide)
    (by simp [sampleOps, sampleMetric]) (by simp [sampleOps])]
  norm_num [sampleMetric, sampleOps]

/-- C2 as stated fails: three readings 10, 20, 30 that all carry a NaN timestamp leave
`metric_accumulated` at -1. -/
theorem C2_sum_reduction_counterexample :
    ¬ (∀ (m : examon_metric (Option ℚ)) (t : Option ℚ) (r : Int × Option ℚ)
        (rs : List (Int × Option ℚ)),
        m.acc_strategy = ACCUMULATION_SUM → 1 ≤ m.metric_iterations →
        2 ≤ m.metric_topic_count → ((r :: rs).length : Int) = m.metric_topic_count →
        sampleOps.ne t m.metric_timestamp = true →
        (ingest sampleOps m (burst t (r :: rs))).metric_accumulated =
          (rs.map Prod.snd).foldl sampleOps.add r.2) := by
  intro h
  have h1 := h (sampleMetric ACCUMULATION_SUM (some 1) (some 5) (some (-1)) 1 3 3) none
    (3, some 10) [(4, some 20), (5, some 30)] rfl (by decide) (by decide) (by decide) rfl
  rw [(dbl_nan_burst_fields sampleOps none (fun _ => rfl) _ _).2] at h1
  norm_num [sampleMetric, sampleOps] at h1

/-- C2, amended. In a metric with strategy SUM, `metric_iterations >= 1` and
`metric_topic_count = N >= 2`, ingesting N readings that all carry one timestamp `t`
that is a number (not NaN) and differs from `metric_timestamp` leaves
`metric_accumulated` equal to the double sum of the N values, added in arrival order. -/
theorem C2_sum_reduction_amended {F : Type} (ops : DoubleOps F) (m : examon_metric F)
    (t : F) (r : Int × F) (rs : List (Int × F))
    (hs : m.acc_strategy = ACCUMULATION_SUM) (hit : 1 ≤ m.metric_iterations)
    (hN : 2 ≤ m.metric_topic_count)
    (hlen : ((r :: rs).length : Int) = m.metric_topic_count)
    (ht : ops.ne t m.metric_timestamp = true) (hnum : ops.ne t t = false) :
    (ingest ops m (burst t (r :: rs))).metric_accumulated =
      (rs.map Prod.snd).foldl ops.add r.2 := by
  rw [dbl_cycle_accumulated ops m t r rs hit (dbl_two_le_length r rs _ hN hlen) hlen ht hnum,
    hs, dbl_fold_step_sum]
  rfl

/-- Witness for C2 (amended): with a fan-in of 3 under SUM, the burst 10, 20, 30 at
timestamp 6 finalizes to 60. -/
theorem C2_sum_reduction_amended_witness :
    (ingest sampleOps (sampleMetric ACCUMULATION_SUM (some 1) (some 5) (some (-1)) 1 3 3)
      (burst (some 6) [(3, some 10), (4, some 20), (5, some 30)])).metric_accumulated =
      some 60 := by
  rw [C2_sum_reduction_amended sampleOps
    (sampleMetric ACCUMULATION_SUM (some 1) (some 5) (some (-1)) 1 3 3) (some 6) (3, some 10)
    [(4, some 20), (5, some 30)] rfl (by decide) (by decide) (by decide)
    (by simp [sampleOps, sampleMetric]) (by simp [sampleOps])]
  norm_num [sampleOps]


theorem dbl_fold_step_min {F : Type} (ops : DoubleOps F) :
    fold_step ops ACCUMULATION_MIN = fun a v => if ops.lt v a = true then v else a := by
  funext a v; rfl

theorem dbl_fold_step_max {F : Type} (ops : DoubleOps F) :
    fold_step ops ACCUMULATION_MAX = fun a v => if ops.lt a v = true then v else a := by
  funext a v; rfl

/-- The MIN fold returns one of the values, and none of the values is `<` it. -/
theorem dbl_foldl_min_spec {F : Type} (ops : DoubleOps F) (laws : OrderLaws ops) (a : F)
    (l : List F) :
    l.foldl (fun a v => if ops.lt v a = true then v else a) a ∈ a :: l ∧
    ∀ x ∈ a :: l, ops.lt x (l.foldl (fun a v => if ops.lt v a = true then v else a) a) = false := by
  induction l using List.reverseRecOn with
  | nil => simp [laws.lt_irrefl]
  | append_singleton l v ih =>
    obtain ⟨hmem, hle⟩ := ih
    rw [List.foldl_append]
    simp only [List.foldl_cons, List.foldl_nil]
    by_cases hlt : ops.lt v (l.foldl (fun a v => if ops.lt v a = true then v else a) a) = true
    · rw [if_pos hlt]
      refine ⟨by simp, ?_⟩
      intro x hx
      rw [← List.cons_append, List.mem_append, List.mem_singleton] at hx
      rcases hx with hx | hx
      · by_contra hc
        have hxv : ops.lt x v = true := by simpa using hc
        have := laws.lt_trans x v _ hxv hlt
        rw [hle x hx] at this
        exact Bool.false_ne_true this
      · rw [hx]; exact laws.lt_irrefl v
    · rw [if_neg hlt]
      refine ⟨?_, ?_⟩
      · rw [← List.cons_append]; exact List.mem_append_left _ hmem
      · intro x hx
        rw [← List.cons_append, List.mem_append, List.mem_singleton] at hx
        rcases hx with hx | hx
        · exact hle x hx
        · rw [hx]; simpa using hlt

/-- The MAX fold returns one of the values, and it is `<` none of the values. -/
theorem dbl_foldl_max_spec {F : Type} (ops : DoubleOps F) (laws : OrderLaws ops) (a : F)
    (l : List F) :
    l.foldl (fun a v => if ops.lt a v = true then v else a) a ∈ a :: l ∧
    ∀ x ∈ a :: l, ops.lt (l.foldl (fun a v => if ops.lt a v = true then v else a) a) x = false := by
  induction l using List.reverseRecOn with
  | nil => simp [laws.lt_irrefl]
  | append_singleton l v ih =>
    obtain ⟨hmem, hle⟩ := ih
    rw [List.foldl_append]
    simp only [List.foldl_cons, List.foldl_nil]
    by_cases hlt : ops.lt (l.foldl (fun a v => if ops.lt a v = true then v else a) a) v = true
    · rw [if_pos hlt]
      refine ⟨by simp, ?_⟩
      intro x hx
      rw [← List.cons_append, List.mem_append, List.mem_singleton] at hx
      rcases hx with hx | hx
      · by_contra hc
        have hxv : ops.lt v x = true := by simpa using hc
        have := laws.lt_trans _ v x hlt hxv
        rw [hle x hx] at this
        exact Bool.false_ne_true this
      · rw [hx]; exact laws.lt_irrefl v
    · rw [if_neg hlt]
      refine ⟨?_, ?_⟩
      · rw [← List.cons_append]; exact List.mem_append_left _ hmem
      · intro x hx
        rw [← List.cons_append, List.mem_append, List.mem_singleton] at hx
        rcases hx with hx | hx
        · exact hle x hx
        · rw [hx]; simpa using hlt

/-- The sample carrier satisfies the comparison laws. -/
theorem sampleOps_order_laws : OrderLaws sampleOps where
  lt_irrefl := by
    intro a
    cases a <;> simp [sampleOps]
  lt_trans := by
    intro a b c
    cases a <;> cases b <;> cases c <;> simp [sampleOps]
    intro h1 h2
    exact lt_trans h1 h2
  eq_of_not_lt := by
    intro a b
    cases a <;> cases b <;> simp [sampleOps]
    intro h1 h2
    exact le_antisymm h2 h1


/-- C3 as stated fails, in two ways: readings that carry a NaN timestamp are never
reduced (`metric_accumulated` stays -1, which is none of the readings), and with a NaN
among the values of a burst the stored MIN depends on the order (NaN, 1, 2 stores NaN;
1, NaN, 2 stores 1). -/
theorem C3_min_max_reduction_counterexample :
    (¬ (∀ (m : examon_metric (Option ℚ)) (t : Option ℚ) (r : Int × Option ℚ)
        (rs : List (Int × Option ℚ)),
        m.acc_strategy = ACCUMULATION_MIN → 1 ≤ m.metric_iterations →
        2 ≤ m.metric_topic_count → ((r :: rs).length : Int) = m.metric_topic_count →
        sampleOps.ne t m.metric_timestamp = true →
        (ingest sampleOps m (burst t (r :: rs))).metric_accumulated ∈
          (r :: rs).map Prod.snd)) ∧
    (¬ (∀ (m : examon_metric (Option ℚ)) (t : Option ℚ) (r r' : Int × Option ℚ)
        (rs rs' : List (Int × Option ℚ)),
        m.acc_strategy = ACCUMULATION_MIN → 1 ≤ m.metric_iterations →
        2 ≤ m.metric_topic_count → ((r :: rs).length : Int) = m.metric_topic_count →
        sampleOps.ne t m.metric_timestamp = true → sampleOps.ne t t = false →
        ((r' :: rs').map Prod.snd).Perm ((r :: rs).map Prod.snd) →
        (ingest sampleOps m (burst t (r' :: rs'))).metric_accumulated =
          (ingest sampleOps m (burst t (r :: rs))).metric_accumulated)) := by
  constructor
  · intro h
    have h1 := h (sampleMetric ACCUMULATION_MIN (some 1) (some 5) (some (-1)) 1 3 3) none
      (3, some 5) [(4, some 1), (5, some 9)] rfl (by decide) (by decide) (by decide) rfl
    rw [(dbl_nan_burst_fields sampleOps none (fun _ => rfl) _ _).2] at h1
    norm_num [sampleMetric] at h1
  · intro h
    have h1 := h (sampleMetric ACCUMULATION_MIN (some 1) (some 5) (some (-1)) 1 3 3) (some 6)
      (3, none) (3, some 1) [(4, some 1), (5, some 2)] [(4, none), (5, some 2)] rfl
      (by decide) (by decide) (by decide) (by simp [sampleOps, sampleMetric])
      (by simp [sampleOps]) (by
        simp only [List.map_cons, List.map_nil]
        exact List.Perm.swap _ _ _)
    rw [dbl_cycle_accumulated sampleOps _ (some 6) (3, none) _ (by decide) (by simp)
        (by decide) (by simp [sampleOps, sampleMetric]) (by simp [sampleOps]),
      dbl_cycle_accumulated sampleOps _ (some 6) (3, some 1) _ (by decide) (by simp)
        (by decide) (by simp [sampleOps, sampleMetric]) (by simp [sampleOps])] at h1
    simp [sampleMetric, fold_final, fold_step, sampleOps] at h1

/-- C3, amended. In a metric with `metric_iterations >= 1` and `metric_topic_count = N
>= 2`, ingest N readings whose values are numbers (not NaN) and which all carry one
timestamp `t` that is a number and differs from `metric_timestamp`. Then under MIN
`metric_accumulated` is one of the N values and none of them is `<` it, under MAX it is
one of the N values and it is `<` none of them, and any reordering of the readings
gives a `metric_accumulated` that compares equal (not `!=`) to it. -/
theorem C3_min_max_reduction_amended {F : Type} (ops : DoubleOps F) (laws : OrderLaws ops)
    (m : examon_metric F) (t : F) (r : Int × F) (rs : List (Int × F))
    (hit : 1 ≤ m.metric_iterations) (hN : 2 ≤ m.metric_topic_count)
    (hlen : ((r :: rs).length : Int) = m.metric_topic_count)
    (ht : ops.ne t m.metric_timestamp = true) (hnum : ops.ne t t = false)
    (hvals : ∀ x ∈ (r :: rs).map Prod.snd, ops.ne x x = false) :
    (m.acc_strategy = ACCUMULATION_MIN →
      (ingest ops m (burst t (r :: rs))).metric_accumulated ∈ (r :: rs).map Prod.snd ∧
      ∀ x ∈ (r :: rs).map Prod.snd,
        ops.lt x (ingest ops m (burst t (r :: rs))).metric_accumulated = false) ∧
    (m.acc_strategy = ACCUMULATION_MAX →
      (ingest ops m (burst t (r :: rs))).metric_accumulated ∈ (r :: rs).map Prod.snd ∧
      ∀ x ∈ (r :: rs).map Prod.snd,
        ops.lt (ingest ops m (burst t (r :: rs))).metric_accumulated x = false) ∧
    (m.acc_strategy = ACCUMULATION_MIN ∨ m.acc_strategy = ACCUMULATION_MAX →
      ∀ (r' : Int × F) (rs' : List (Int × F)),
        ((r' :: rs').map Prod.snd).Perm ((r :: rs).map Prod.snd) →
        ops.ne (ingest ops m (burst t (r' :: rs'))).metric_accumulated
          (ingest ops m (burst t (r :: rs))).metric_accumulated = false) := by
  have hmin : ∀ (q : Int × F) (l : List (Int × F)),
      ((q :: l).length : Int) = m.metric_topic_count →
      m.acc_strategy = ACCUMULATION_MIN →
      (ingest ops m (burst t (q :: l))).metric_accumulated ∈ (q :: l).map Prod.snd ∧
      ∀ x ∈ (q :: l).map Prod.snd,
        ops.lt x (ingest ops m (burst t (q :: l))).metric_accumulated = false := by
    intro q l hl hs
    rw [dbl_cycle_accumulated ops m t q l hit (dbl_two_le_length q l _ hN hl) hl ht hnum, hs,
      dbl_fold_step_min]
    exact dbl_foldl_min_spec ops laws q.2 (l.map Prod.snd)
  have hmax : ∀ (q : Int × F) (l : List (Int × F)),
      ((q :: l).length : Int) = m.metric_topic_count →
      m.acc_strategy = ACCUMULATION_MAX →
      (ingest ops m (burst t (q :: l))).metric_accumulated ∈ (q :: l).map Prod.snd ∧
      ∀ x ∈ (q :: l).map Prod.snd,
        ops.lt (ingest ops m (burst t (q :: l))).metric_accumulated x = false := by
    intro q l hl hs
    rw [dbl_cycle_accumulated ops m t q l hit (dbl_two_le_length q l _ hN hl) hl ht hnum, hs,
      dbl_fold_step_max]
    exact dbl_foldl_max_spec ops laws q.2 (l.map Prod.snd)
  refine ⟨hmin r rs hlen, hmax r rs hlen, ?_⟩
  intro hs r' rs' hperm
  have hl' : ((r' :: rs').length : Int) = m.metric_topic_count := by
    have := hperm.length_eq
    simp only [List.length_map] at this
    rw [this]; exact hlen
  rcases hs with hs | hs
  · obtain ⟨h1, h2⟩ := hmin r rs hlen hs
    obtain ⟨h1', h2'⟩ := hmin r' rs' hl' hs
    exact laws.eq_of_not_lt _ _ (hvals _ (hperm.subset h1')) (hvals _ h1)
      (h2 _ (hperm.subset h1')) (h2' _ (hperm.symm.subset h1))
  · obtain ⟨h1, h2⟩ := hmax r rs hlen hs
    obtain ⟨h1', h2'⟩ := hmax r' rs' hl' hs
    exact laws.eq_of_not_lt _ _ (hvals _ (hperm.subset h1')) (hvals _ h1)
      (h2' _ (hperm.symm.subset h1)) (h2 _ (hperm.subset h1'))

/-- Witness for C3 (amended): with a fan-in of 3, the burst 5, 1, 9 at timestamp 6
finalizes to 1 under MIN and to 9 under MAX. -/
theorem C3_min_max_reduction_amended_witness :
    (ingest sampleOps (sampleMetric ACCUMULATION_MIN (some 1) (some 5) (some (-1)) 1 3 3)
      (burst (some 6) [(3, some 5), (4, some 1), (5, some 9)])).metric_accumulated = some 1 ∧
    (ingest sampleOps (sampleMetric ACCUMULATION_MAX (some 1) (some 5) (some (-1)) 1 3 3)
      (burst (some 6) [(3, some 5), (4, some 1), (5, some 9)])).metric_accumulated = some 9 := by
  obtain ⟨hmin, -, -⟩ := C3_min_max_reduction_amended sampleOps sampleOps_order_laws
    (sampleMetric ACCUMULATION_MIN (some 1) (some 5) (some (-1)) 1 3 3) (some 6) (3, some 5)
    [(4, some 1), (5, some 9)] (by decide) (by decide) (by decide)
    (by simp [sampleOps, sampleMetric]) (by simp [sampleOps]) (by simp [sampleOps])
  obtain ⟨-, hmax, -⟩ := C3_min_max_reduction_amended sampleOps sampleOps_order_laws
    (sampleMetric ACCUMULATION_MAX (some 1) (some 5) (some (-1)) 1 3 3) (some 6) (3, some 5)
    [(4, some 1), (5, some 9)] (by decide) (by decide) (by decide)
    (by simp [sampleOps, sampleMetric]) (by simp [sampleOps]) (by simp [sampleOps])
  obtain ⟨h1, h2⟩ := hmin rfl
  obtain ⟨h3, h4⟩ := hmax rfl
  constructor
  · have hle := h2 (some 1) (by simp)
    simp only [List.map_cons, List.map_nil, List.mem_cons, List.mem_singleton,
      List.not_mem_nil, or_false] at h1
    rcases h1 with h | h | h
    · rw [h] at hle; revert hle; norm_num [sampleOps]
    · exact h
    · rw [h] at hle; revert hle; norm_num [sampleOps]
  · have hle := h4 (some 9) (by simp)
    simp only [List.map_cons, List.map_nil, List.mem_cons, List.mem_singleton,
      List.not_mem_nil, or_false] at h3
    rcases h3 with h | h | h
    · rw [h] at hle; revert hle; norm_num [sampleOps]
    · rw [h] at hle; revert hle; norm_num [sampleOps]
    · exact h


theorem dbl_scan_eq_reading {F : Type} (s : ScanResult F) (h : s.values_read = 2) :
    s = reading s.read_value s.read_timestamp := by
  cases s; simp only [reading] at *; rw [h]

theorem dbl_handle_undecodable {F : Type} (ops : DoubleOps F) (m : examon_metric F) (n : Int)
    (s : ScanResult F) (h : s.values_read ≠ 2) : handle_message ops m n s = m := by
  have h2 : ¬ (2 = s.values_read) := fun h' => h h'.symm
  unfold handle_message
  rw [if_neg h2]

/-- While Learning, a burst of readings at the current timestamp (a number) only
counts topics. -/
theorem dbl_learning_burst_fields {F : Type} (ops : DoubleOps F) (t : F)
    (hnum : ops.ne t t = false) (rs : List (Int × F)) :
    ∀ m : examon_metric F, m.metric_iterations = 1 → m.metric_timestamp = t →
      (ingest ops m (burst t rs)).metric_iterations = 1 ∧
      (ingest ops m (burst t rs)).metric_timestamp = t ∧
      (ingest ops m (burst t rs)).metric_topic_count =
        m.metric_topic_count + (rs.length : Int) := by
  induction rs with
  | nil => intro m h1 h2; simp [burst, dbl_ingest_nil, h1, h2]
  | cons r rs ih =>
    intro m h1 h2
    obtain ⟨-, hts, hit, htc, -⟩ :=
      dbl_handle_dup_learning_fields ops m r.1 r.2 t (by rw [h2]; exact hnum) h1
    rw [dbl_burst_cons, dbl_ingest_cons]
    obtain ⟨a1, a2, a3⟩ := ih _ hit hts
    refine ⟨a1, a2, ?_⟩
    rw [a3, htc]; simp only [List.length_cons, Nat.cast_add, Nat.cast_one]; ring

/-- The very first burst: a reading with a new timestamp (a number) on a metric that
has seen nothing, followed by duplicates. -/
theorem dbl_first_burst_fields {F : Type} (ops : DoubleOps F) (m : examon_metric F) (t : F)
    (r : Int × F) (rs : List (Int × F)) (h0 : m.metric_iterations = 0)
    (ht : ops.ne t m.metric_timestamp = true) (hnum : ops.ne t t = false) :
    (ingest ops m (burst t (r :: rs))).metric_iterations = 1 ∧
    (ingest ops m (burst t (r :: rs))).metric_timestamp = t ∧
    (ingest ops m (burst t (r :: rs))).metric_topic_count =
      m.metric_topic_count + (rs.length : Int) := by
  obtain ⟨-, hts, hit, htc, -⟩ := dbl_handle_new_fields ops m r.1 r.2 t ht
  rw [dbl_burst_cons, dbl_ingest_cons]
  obtain ⟨a1, a2, a3⟩ :=
    dbl_learning_burst_fields ops t hnum rs _ (by rw [hit, h0]; rfl) hts
  exact ⟨a1, a2, by rw [a3, htc]⟩

/-- In Steady state no message changes the topic count, and Steady is never left. -/
theorem dbl_steady_step {F : Type} (ops : DoubleOps F) (m : examon_metric F) (n : Int)
    (s : ScanResult F) (h : 1 < m.metric_iterations) :
    1 < (handle_message ops m n s).metric_iterations ∧
    (handle_message ops m n s).metric_topic_count = m.metric_topic_count := by
  by_cases hs : s.values_read = 2
  · rw [dbl_scan_eq_reading s hs]
    by_cases ht : ops.ne s.read_timestamp m.metric_timestamp = true
    · obtain ⟨-, -, hit, htc, -⟩ :=
        dbl_handle_new_fields ops m n s.read_value s.read_timestamp ht
      rw [hit, htc]; exact ⟨by omega, rfl⟩
    · obtain ⟨-, -, hit, htc, -⟩ :=
        dbl_handle_dup_steady_fields ops m n s.read_value s.read_timestamp
          (by simpa using ht) (by omega)
      rw [hit, htc]; exact ⟨h, rfl⟩
  · rw [dbl_handle_undecodable ops m n s hs]; exact ⟨h, rfl⟩

theorem dbl_steady_ingest {F : Type} (ops : DoubleOps F) (evs : List (Event F)) :
    ∀ m : examon_metric F, 1 < m.metric_iterations →
      1 < (ingest ops m evs).metric_iterations ∧
      (ingest ops m evs).metric_topic_count = m.metric_topic_count := by
  induction evs with
  | nil => intro m h; exact ⟨h, rfl⟩
  | cons ev evs ih =>
    intro m h
    obtain ⟨h1, h2⟩ := dbl_steady_step ops m ev.1 ev.2 h
    rw [dbl_ingest_cons]
    obtain ⟨h3, h4⟩ := ih _ h1
    exact ⟨h3, h4.trans h2⟩

/-- C4 as stated fails: three readings that all carry a NaN first timestamp (which
compares different from 0) leave the topic count of a fresh metric at 1. -/
theorem C4_fan_in_discovery_and_freeze_counterexample :
    ¬ (∀ (d : Deps (Option ℚ)) (e : Option ℚ) (i : Int) (nm : String) (g : Bool)
        (t1 : Option ℚ) (rs : List (Int × Option ℚ)), 1 ≤ rs.length →
        sampleOps.ne t1 sampleOps.zero = true →
        (ingest sampleOps (examon_metric.new sampleOps d e i nm g)
          (burst t1 rs)).metric_topic_count = (rs.length : Int)) := by
  intro h
  have h1 := h sampleDeps (some 0) 7 "cpu/0/temp" false none
    [(0, some 1), (1, some 2), (2, some 3)] (by decide) rfl
  rw [(dbl_nan_burst_fields sampleOps none (fun _ => rfl) _ _).1] at h1
  exact absurd h1 (by decide)

/-- C4, amended. On a freshly constructed metric, N >= 1 readings that all carry one
first timestamp `t1` that is a number (not NaN) and differs from 0 leave
`metric_topic_count = N`; after a further reading at a timestamp that differs from
`t1`, followed by any messages whatsoever, `metric_topic_count` is still N. -/
theorem C4_fan_in_discovery_and_freeze_amended {F : Type} (ops : DoubleOps F) (d : Deps F)
    (e : F) (i : Int) (nm : String) (g : Bool) (t1 : F) (rs : List (Int × F))
    (hN : 1 ≤ rs.length) (ht1 : ops.ne t1 ops.zero = true) (hnum : ops.ne t1 t1 = false) :
    (ingest ops (examon_metric.new ops d e i nm g) (burst t1 rs)).metric_topic_count =
      (rs.length : Int) ∧
    ∀ (n : Int) (v t2 : F) (evs : List (Event F)), ops.ne t2 t1 = true →
      (ingest ops (examon_metric.new ops d e i nm g)
        (burst t1 rs ++ (n, reading v t2) :: evs)).metric_topic_count = (rs.length : Int) := by
  match rs, hN with
  | r :: rs', _ =>
    obtain ⟨hit, hts, htc⟩ :=
      dbl_first_burst_fields ops (examon_metric.new ops d e i nm g) t1 r rs' rfl ht1 hnum
    have hcount : (ingest ops (examon_metric.new ops d e i nm g)
        (burst t1 (r :: rs'))).metric_topic_count = ((r :: rs').length : Int) := by
      rw [htc]
      show (1 : Int) + (rs'.length : Int) = ((r :: rs').length : Int)
      simp only [List.length_cons, Nat.cast_add, Nat.cast_one]
      ring
    refine ⟨hcount, ?_⟩
    intro n v t2 evs ht2
    rw [dbl_ingest_append, dbl_ingest_cons]
    obtain ⟨-, -, hit', htc', -⟩ :=
      dbl_handle_new_fields ops
        (ingest ops (examon_metric.new ops d e i nm g) (burst t1 (r :: rs'))) n v t2
        (by rw [hts]; exact ht2)
    obtain ⟨-, h⟩ := dbl_steady_ingest ops evs _ (by rw [hit', hit]; decide)
    exact h.trans (htc'.trans hcount)

/-- Witness for C4 (amended): three readings at timestamp 5 give a fan-in of 3, which
survives a later cycle of four readings at timestamp 6. -/
theorem C4_fan_in_discovery_and_freeze_amended_witness :
    (ingest sampleOps (examon_metric.new sampleOps sampleDeps (some 0) 7 "cpu/0/temp" false)
      (burst (some 5) [(0, some 1), (1, some 2), (2, some 3)])).metric_topic_count = 3 ∧
    (ingest sampleOps (examon_metric.new sampleOps sampleDeps (some 0) 7 "cpu/0/temp" false)
      (burst (some 5) [(0, some 1), (1, some 2), (2, some 3)] ++
        (3, reading (some 10) (some 6)) ::
          burst (some 6) [(4, some 20), (5, some 30), (6, some 40)])).metric_topic_count
      = 3 := by
  obtain ⟨h1, h2⟩ := C4_fan_in_discovery_and_freeze_amended sampleOps sampleDeps (some 0) 7
    "cpu/0/temp" false (some 5) [(0, some 1), (1, some 2), (2, some 3)] (by decide)
    (by simp [sampleOps]) (by simp [sampleOps])
  exact ⟨h1, h2 3 (some 10) (some 6) (burst (some 6) [(4, some 20), (5, some 30), (6, some 40)])
    (by simp [sampleOps])⟩

end IEEE

theorem push_latest_value_agrees (m : examon_metric) (n : Int) (b : Bool) :
    IEEE.push_latest_value ratOps (toIEEE m) n b = toIEEE (push_latest_value m n b) := by
  unfold IEEE.push_latest_value push_latest_value
  by_cases hty : m.metric_type = ENERGY
  · by_cases he : 0 < m.erg_unit
    · have he' : ratOps.lt ratOps.zero (toIEEE m).erg_unit = true := by
        simp [ratOps, toIEEE, he]
      have hty' : (toIEEE m).metric_type = ENERGY := hty
      simp only [hty, hty', he, he', if_true]
      rfl
    · have he' : ¬ ratOps.lt ratOps.zero (toIEEE m).erg_unit = true := by
        simp [ratOps, toIEEE]; exact not_lt.mp he
      have hty' : (toIEEE m).metric_type = ENERGY := hty
      simp only [hty, hty', he, he', if_true, if_false, Bool.false_eq_true]
  · have hty' : ¬ (toIEEE m).metric_type = ENERGY := hty
    simp only [hty, hty', if_false]
    rfl

theorem accumulate_agrees (m : examon_metric) (v : ℚ) (b : Bool) :
    IEEE.accumulate ratOps (toIEEE m) v b = toIEEE (accumulate m v b) := by
  unfold IEEE.accumulate accumulate
  have hst : (toIEEE m).acc_strategy = m.acc_strategy := rfl
  rw [hst]
  cases hs : m.acc_strategy <;> simp only []
  · cases b <;> rfl
  · cases b <;> rfl
  · by_cases h : m.metric_value > v
    · have h' : ratOps.lt v (toIEEE m).metric_value = true := by
        simp [ratOps, toIEEE]; exact h
      simp only [h, h', if_true]
      cases b <;> rfl
    · have h' : ¬ ratOps.lt v (toIEEE m).metric_value = true := by
        simp [ratOps, toIEEE]; exact not_lt.mp h
      simp only [h, h', if_false]
      cases b <;> rfl
  · by_cases h : m.metric_value < v
    · have h' : ratOps.lt (toIEEE m).metric_value v = true := by
        simp [ratOps, toIEEE]; exact h
      simp only [h, h', if_true]
      cases b <;> rfl
    · have h' : ¬ ratOps.lt (toIEEE m).metric_value v = true := by
        simp [ratOps, toIEEE]; exact not_lt.mp h
      simp only [h, h', if_false]
      cases b <;> rfl

/-- The rational embedding of `handle_message` is the embedding over `DoubleOps` at
exact rational arithmetic. -/
theorem handle_message_agrees (m : examon_metric) (n : Int) (s : ScanResult) :
    IEEE.handle_message ratOps (toIEEE m) n (toIEEEScan s) =
      toIEEE (handle_message m n s) := by
  by_cases hs : s.values_read = 2
  · rw [scan_eq_reading s hs]
    show IEEE.handle_message ratOps (toIEEE m) n (IEEE.reading s.read_value s.read_timestamp) = _
    by_cases ht : s.read_timestamp = m.metric_timestamp
    · have ht' : ratOps.ne s.read_timestamp (toIEEE m).metric_timestamp = false := by
        simp [ratOps, toIEEE, ht]
      by_cases hit : m.metric_iterations = 1
      · rw [handle_dup_learning_eq m n _ _ ht hit,
          IEEE.dbl_handle_dup_learning_eq ratOps (toIEEE m) n _ _ ht' hit]
        rfl
      · rw [handle_dup_steady_eq m n _ _ ht hit,
          IEEE.dbl_handle_dup_steady_eq ratOps (toIEEE m) n _ _ ht' hit]
        have hacc := accumulate_agrees { m with metric_sub_iterations := m.metric_sub_iterations + 1 }
          s.read_value (m.metric_sub_iterations + 1 == m.metric_topic_count)
        have hpush := push_latest_value_agrees
          (accumulate { m with metric_sub_iterations := m.metric_sub_iterations + 1 }
            s.read_value (m.metric_sub_iterations + 1 == m.metric_topic_count)) n true
        by_cases hc : (m.metric_sub_iterations + 1 == m.metric_topic_count &&
            m.do_gather_data) = true
        · have hc' : ((toIEEE m).metric_sub_iterations + 1 == (toIEEE m).metric_topic_count &&
              (toIEEE m).do_gather_data) = true := hc
          rw [if_pos hc, if_pos hc']
          show ({ IEEE.push_latest_value ratOps
              (IEEE.accumulate ratOps
                (toIEEE { m with metric_sub_iterations := m.metric_sub_iterations + 1 })
                s.read_value (m.metric_sub_iterations + 1 == m.metric_topic_count)) n true with
              metric_timestamp := s.read_timestamp } : IEEE.examon_metric ℚ) = _
          rw [hacc, hpush]
          rfl
        · have hc' : ¬ ((toIEEE m).metric_sub_iterations + 1 == (toIEEE m).metric_topic_count &&
              (toIEEE m).do_gather_data) = true := hc
          rw [if_neg hc, if_neg hc']
          show ({ IEEE.accumulate ratOps
                (toIEEE { m with metric_sub_iterations := m.metric_sub_iterations + 1 })
                s.read_value (m.metric_sub_iterations + 1 == m.metric_topic_count) with
              metric_timestamp := s.read_timestamp } : IEEE.examon_metric ℚ) = _
          rw [hacc]
          rfl
    · have ht' : ratOps.ne s.read_timestamp (toIEEE m).metric_timestamp = true := by
        simp [ratOps, toIEEE, ht]
      rw [handle_new_eq m n _ _ ht, IEEE.dbl_handle_new_eq ratOps (toIEEE m) n _ _ ht']
      have hpush := push_latest_value_agrees { m with
            metric_elapsed := s.read_timestamp - m.metric_timestamp
            metric_value := s.read_value
            metric_iterations := m.metric_iterations + 1
            metric_sub_iterations := 1 } n false
      by_cases hc : m.do_gather_data = true ∧ 1 < m.metric_iterations + 1 ∧
          1 = m.metric_topic_count
      · have hc' : (toIEEE m).do_gather_data = true ∧ 1 < (toIEEE m).metric_iterations + 1 ∧
            1 = (toIEEE m).metric_topic_count := hc
        rw [if_pos hc, if_pos hc']
        show ({ IEEE.push_latest_value ratOps (toIEEE { m with
              metric_elapsed := s.read_timestamp - m.metric_timestamp
              metric_value := s.read_value
              metric_iterations := m.metric_iterations + 1
              metric_sub_iterations := 1 }) n false with
            metric_timestamp := s.read_timestamp } : IEEE.examon_metric ℚ) = _
        rw [hpush]
        rfl
      · have hc' : ¬ ((toIEEE m).do_gather_data = true ∧ 1 < (toIEEE m).metric_iterations + 1 ∧
            1 = (toIEEE m).metric_topic_count) := hc
        rw [if_neg hc, if_neg hc']
        rfl
  · rw [handle_undecodable m n s hs]
    exact IEEE.dbl_handle_undecodable ratOps (toIEEE m) n (toIEEEScan s) hs

/-- The same for message sequences. -/
theorem ingest_agrees (evs : List Event) :
    ∀ m : examon_metric,
      IEEE.ingest ratOps (toIEEE m) (evs.map (fun ev => (ev.1, toIEEEScan ev.2))) =
        toIEEE (ingest m evs) := by
  induction evs with
  | nil => intro m; rfl
  | cons ev evs ih =>
    intro m
    rw [List.map_cons, IEEE.dbl_ingest_cons, ingest_cons, handle_message_agrees, ih]

end Examon
